import Mathlib

/-!
Verification of the TTApp timetable engine (src/app.py, src/models.py).

This file gives a shallow embedding of the schedule-generation endpoint
(`generate_schedule`, app.py lines 651-1245), the substitution advisor and
absence-marking endpoint (`absent_teachers`, app.py lines 1248-1389), and the
data model (models.py), and proves/refutes the frozen claims about them.

Modelling conventions:
* SQLAlchemy rows become structures; `Query.all()` enumeration order is the
  store order of the embedded lists; `Query.get(id)` / `.first()` are `find?`.
* Machine integers are `Nat` (ids, days, periods) and `Int` (grades, which the
  migration adds as a nullable INTEGER column, app.py lines 109-115).
* Python truthiness of an optional integer (`if not teacher_id:`) is modelled
  by `truthyN`: `None` and `0` are falsy.
* `db.session.add` appends to the flushed schedule list; SQLAlchemy autoflush
  makes pending rows visible to the in-run `Schedule.query` calls, so those
  calls read the accumulated list.  `generate_schedule` deletes every
  Schedule row and commits before anything else (app.py lines 669-671), so
  the run starts from the empty schedule list and the final store replaces
  the schedule table by the run output.
* Dates are proleptic-Gregorian ordinals (`Nat`); `datetime.date.weekday`
  becomes `pythonWeekday` (ordinal 1 = 0001-01-01 is a Monday).
* `str.lower` on the ASCII subject names becomes `String.toLower`.
-/

namespace TTApp

/-- Teacher row (models.py `Teacher`): id, name, flags, and the ids of the
subjects the teacher teaches (`teacher_subjects` association). -/
structure Teacher where
  id : Nat
  name : String
  isClassTeacher : Bool
  isLeisure : Bool
  subjects : List Nat
deriving Repr, DecidableEq

/-- Subject row (models.py `Subject`). -/
structure Subject where
  id : Nat
  name : String
deriving Repr, DecidableEq

/-- Class row (models.py `Class` plus the migrated nullable `grade` column,
app.py lines 109-115). -/
structure SchoolClass where
  id : Nat
  name : String
  grade : Option Int
  classTeacherId : Option Nat
deriving Repr, DecidableEq

/-- Schedule row (models.py `Schedule`): one assignment.
day: 0=Monday .. 6=Sunday; period: 1..8. -/
structure Schedule where
  teacherId : Nat
  classId : Nat
  subjectId : Nat
  day : Nat
  period : Nat
deriving Repr, DecidableEq

/-- Absence row (models.py `Absence`); the date is a proleptic-Gregorian
ordinal. -/
structure Absence where
  teacherId : Nat
  date : Nat
  isSubstituted : Bool
  substituteTeacherId : Option Nat
deriving Repr, DecidableEq

/-- The relevant tables of the data store, in stable enumeration order. -/
structure Store where
  teachers : List Teacher
  subjects : List Subject
  classes : List SchoolClass
  schedules : List Schedule
  absences : List Absence
deriving Repr, DecidableEq

/-- Python truthiness of an optional integer: `None` and `0` are falsy
(`if not teacher_id:`, `if teacher_id:`, `if class_obj.class_teacher_id`). -/
def truthyN : Option Nat → Bool
  | none => false
  | some n => n != 0

/-- `datetime.date.weekday()` for a proleptic-Gregorian ordinal:
ordinal 1 (0001-01-01) is a Monday (weekday 0). -/
def pythonWeekday (ordinal : Nat) : Nat := (ordinal + 6) % 7

/-- `Teacher.query.get(tid)`. -/
def findTeacherById (ts : List Teacher) (tid : Nat) : Option Teacher :=
  ts.find? (fun t => t.id == tid)

/-- `", ".join(names)`. -/
def commaJoin : List String → String
  | [] => ""
  | [x] => x
  | x :: y :: xs => x ++ ", " ++ commaJoin (y :: xs)

/-- `func.lower` / `str.lower` on the ASCII subject names: `String.toLower`
written as a map over the character list so that it reduces in the
kernel. -/
def pyLower (s : String) : String := ⟨s.data.map Char.toLower⟩

/-- `Subject.query.filter(func.lower(Subject.name) == nm).first()`. -/
def findSubjectNamed (subjects : List Subject) (nm : String) : Option Subject :=
  subjects.find? (fun s => pyLower s.name == nm)

/-- `Subject.query.filter(func.lower(Subject.name).in_(nms)).first()`. -/
def findSubjectNamedIn (subjects : List Subject) (nms : List String) : Option Subject :=
  subjects.find? (fun s => nms.contains (pyLower s.name))

/-- app.py line 693. -/
def librarySubjectOf (subjects : List Subject) : Option Subject :=
  findSubjectNamed subjects "library"

/-- app.py line 694. -/
def gamesSubjectOf (subjects : List Subject) : Option Subject :=
  findSubjectNamed subjects "games"

/-- app.py lines 695-697: "maths" first, falling back to "mathematics". -/
def mathsSubjectOf (subjects : List Subject) : Option Subject :=
  match findSubjectNamed subjects "maths" with
  | some m => some m
  | none => findSubjectNamed subjects "mathematics"

/-- app.py lines 700-702. -/
def physicalScienceSubjectOf (subjects : List Subject) : Option Subject :=
  findSubjectNamedIn subjects ["physical science", "physics"]

/-- app.py lines 703-705. -/
def bioScienceSubjectOf (subjects : List Subject) : Option Subject :=
  findSubjectNamedIn subjects ["bio science", "biology", "biological science"]

/-- app.py line 706. -/
def scienceSubjectOf (subjects : List Subject) : Option Subject :=
  findSubjectNamed subjects "science"

/-- `subject_teacher_map` before the science merge (app.py lines 708-718):
the ids of the (non-leisure) teachers that teach subject `sid`, in store
order. -/
def baseSubjectTeachers (teachers : List Teacher) (sid : Nat) : List Nat :=
  (teachers.filter (fun t => t.subjects.contains sid)).map (fun t => t.id)

/-- `subject_teacher_map` after the bio-science merge (app.py lines 708-731).
The dict has a key for every subject in the store (`.get(sid, [])` yields []
for alien ids).  When a bio-science subject and a "science" subject both
exist, the science entry becomes `list(set(science_teachers +
bio_science_teachers))`; Python's set fixes a hash-dependent but
deterministic order, which we model as keep-first deduplication of the
concatenation (no settled claim depends on this order).  The
`if bio_science_subject.id not in subject_teacher_map` branch (line 730) is
dead: the dict already has a key for every stored subject. -/
def subjectTeachers (teachers : List Teacher) (subjects : List Subject) (sid : Nat) : List Nat :=
  if subjects.any (fun s => s.id == sid) then
    match bioScienceSubjectOf subjects, scienceSubjectOf subjects with
    | some bio, some sci =>
      if sid == sci.id then
        (baseSubjectTeachers teachers sid ++ baseSubjectTeachers teachers bio.id).eraseDups
      else baseSubjectTeachers teachers sid
    | _, _ => baseSubjectTeachers teachers sid
  else []

/-- Read-only context of one generation run: `teachers` is the non-leisure
list (app.py line 674), `allTeachers` the whole table (for
`Teacher.query.get`). -/
structure GenCtx where
  teachers : List Teacher
  allTeachers : List Teacher
  classes : List SchoolClass
  subjects : List Subject
deriving Repr, DecidableEq

/-- Mutable state of one generation run: the flushed Schedule rows in
insertion order, the `class_subject_teacher_map` as a
(classId, subjectId, teacherId) association list (prepend + first-match
lookup = dict overwrite), and the two report accumulators that the claims
touch (`unscheduled_periods` and `missing_requirements['summary']`). -/
structure GenState where
  scheds : List Schedule
  bindMap : List (Nat × Nat × Nat)
  unscheduled : List String
  summary : List String
deriving Repr, DecidableEq

/-- `subject.id in class_subject_teacher_map[class_id]` /
`class_subject_teacher_map[class_id][subject.id]`. -/
def bindLookup (m : List (Nat × Nat × Nat)) (cid sid : Nat) : Option Nat :=
  (m.find? (fun e => e.1 == cid && e.2.1 == sid)).map (fun e => e.2.2)

/-- `db.session.add(Schedule(...))`. -/
def addSched (st : GenState) (teacherId cid sid day period : Nat) : GenState :=
  { st with scheds := st.scheds ++
      [{ teacherId := teacherId, classId := cid, subjectId := sid,
         day := day, period := period }] }

/-- `get_available_teacher_for_subject` (app.py lines 734-762) in its
`allow_no_teacher=False` form: first candidate teacher of the subject not
already flushed at this (day, period) for another class.  Every call site
passes `exclude_class_id=class_obj.id`.  (The `allow_no_teacher=True` form
returns the `-1` marker before doing anything; its call sites are modelled
directly, see `processClass67` / `processClass89`.) -/
def get_available_teacher_for_subject (ctx : GenCtx) (scheds : List Schedule)
    (subjectId day period excludeClassId : Nat) : Option Nat :=
  let candidateTeachers := subjectTeachers ctx.teachers ctx.subjects subjectId
  if candidateTeachers.isEmpty then none
  else
    let busyTeachers := (scheds.filter (fun s =>
      s.day == day && s.period == period && s.classId != excludeClassId)).map
        (fun s => s.teacherId)
    candidateTeachers.find? (fun tid => !(busyTeachers.contains tid))

/-- `teachers[0].id if teachers else None`. -/
def headTeacherIdOpt (ctx : GenCtx) : Option Nat :=
  match ctx.teachers with
  | [] => none
  | t :: _ => some t.id

/-- The placeholder fallback shared by the regular-period loops (app.py
lines 883-887 / 1019-1023 / 1137-1141): keep a truthy fresh pick, otherwise
use the first non-leisure teacher; `none` only when no teachers exist. -/
def freshOrPlaceholder (ctx : GenCtx) (fresh : Option Nat) : Option Nat :=
  if truthyN fresh then fresh else headTeacherIdOpt ctx

/-- The "... (no teachers in system)" entry of `unscheduled_periods`
(app.py lines 889 / 1025 / 1143). -/
def unscheduledMsg (c : SchoolClass) (day period : Nat) (subjName : String) : String :=
  c.name ++ " Day " ++ toString (day + 1) ++ " Period " ++ toString period ++
    ": " ++ subjName ++ " (no teachers in system)"

/-- `existing_subjects_today` seed: subject ids of flushed rows for this
class and day (app.py lines 829-835 / 960-966). -/
def subjectsScheduledToday (scheds : List Schedule) (cid day : Nat) : List Nat :=
  (scheds.filter (fun s => s.classId == cid && s.day == day)).map
    (fun s => s.subjectId)

/-- Result of the class-teacher period-1 pass. -/
structure CTResult where
  st : GenState
  used : List Nat
  period1Assigned : Bool
deriving Repr, DecidableEq

/-- The class-teacher period-1 pass, identical in the 6/7 and 8/9 branches
(app.py lines 837-862 and 968-993): on Monday only, if the class has a
class teacher, bind period 1 to that teacher and to the first subject of
`regular` not used today (falling back to the first subject), and record
the binding in `class_subject_teacher_map`. -/
def classTeacherPeriod1 (ctx : GenCtx) (c : SchoolClass) (day : Nat)
    (regular : List Subject) (st : GenState) (used : List Nat) : CTResult :=
  if truthyN c.classTeacherId && day == 0 then
    match c.classTeacherId with
    | none => ⟨st, used, false⟩
    | some ctid =>
      match findTeacherById ctx.allTeachers ctid, regular with
      | some ct, s0 :: _ =>
        let subjectForPeriod1 := (regular.find? (fun s => !(used.contains s.id))).getD s0
        let st1 := addSched st ct.id c.id subjectForPeriod1.id day 1
        let st2 := { st1 with bindMap := (c.id, subjectForPeriod1.id, ct.id) :: st1.bindMap }
        ⟨st2, used ++ [subjectForPeriod1.id], true⟩
      | _, _ => ⟨st, used, false⟩
  else ⟨st, used, false⟩

/-- The regular-period loop shared (up to the sticky-map consultation) by
the three grade branches: 6/7 periods 1-6 with `sticky := false` (app.py
lines 865-900), 8/9 periods 1-7 with `sticky := true` (lines 996-1039),
and 10 periods 2-7 with `sticky := true` (lines 1118-1157).  Each step
skips period 1 when the class teacher already filled it, picks the first
subject of `regular` not yet used today (breaking out of the loop when
none is left), then: in sticky mode reuses the teacher bound to
(class, subject) when present; otherwise freshly selects an available
teacher, falls back to the placeholder `teachers[0]`, records an
unscheduled period (and moves on) when no teacher exists at all, and in
sticky mode stores the chosen teacher in the binding map. -/
def regularPeriodsLoop (ctx : GenCtx) (c : SchoolClass) (day : Nat)
    (regular : List Subject) (sticky : Bool) (period1Assigned : Bool) :
    List Nat → GenState → List Nat → GenState
  | [], st, _ => st
  | period :: rest, st, used =>
    if period == 1 && period1Assigned then
      regularPeriodsLoop ctx c day regular sticky period1Assigned rest st used
    else
      match regular.find? (fun s => !(used.contains s.id)) with
      | none => st
      | some subject =>
        match (if sticky then bindLookup st.bindMap c.id subject.id else none) with
        | some teacherId =>
          regularPeriodsLoop ctx c day regular sticky period1Assigned rest
            (addSched st teacherId c.id subject.id day period) (used ++ [subject.id])
        | none =>
          match freshOrPlaceholder ctx
              (get_available_teacher_for_subject ctx st.scheds subject.id day period c.id) with
          | none =>
            regularPeriodsLoop ctx c day regular sticky period1Assigned rest
              { st with unscheduled := st.unscheduled ++ [unscheduledMsg c day period subject.name] }
              used
          | some teacherId =>
            let st1 := if sticky
              then { st with bindMap := (c.id, subject.id, teacherId) :: st.bindMap }
              else st
            regularPeriodsLoop ctx c day regular sticky period1Assigned rest
              (addSched st1 teacherId c.id subject.id day period) (used ++ [subject.id])

/-- `regular_subjects` of the 6/7 branch (app.py lines 800-826): drop
library, games and physical science; when a science subject is to be used
(the "science" subject, else the bio-science subject) also drop the
bio-science subject; keep the first 5; append the science subject; keep
the first 6.  Comparisons against a missing special subject
(`s.id != (x.id if x else None)`) keep the row. -/
def regularSubjects67 (subjects : List Subject) : List Subject :=
  let libO := librarySubjectOf subjects
  let gamO := gamesSubjectOf subjects
  let phyO := physicalScienceSubjectOf subjects
  let bioO := bioScienceSubjectOf subjects
  let sciToUse := match scienceSubjectOf subjects with
    | some sci => some sci
    | none => bioO
  let neOpt := fun (o : Option Subject) (s : Subject) =>
    match o with
    | some x => s.id != x.id
    | none => true
  let r1 := subjects.filter (fun s => neOpt libO s && neOpt gamO s && neOpt phyO s)
  let r2 := match bioO, sciToUse with
    | some bio, some _ => r1.filter (fun (s : Subject) => s.id != bio.id)
    | _, _ => r1
  let r3 := r2.take 5
  let r4 := match sciToUse with
    | some sci => r3 ++ [sci]
    | none => r3
  r4.take 6

/-- `regular_subjects` of the 8/9 branch (app.py lines 953-957): drop
library and games, keep the first 7. -/
def regularSubjects89 (subjects : List Subject) : List Subject :=
  let libO := librarySubjectOf subjects
  let gamO := gamesSubjectOf subjects
  let neOpt := fun (o : Option Subject) (s : Subject) =>
    match o with
    | some x => s.id != x.id
    | none => true
  (subjects.filter (fun s => neOpt libO s && neOpt gamO s)).take 7

/-- `other_subjects` of the grade-10 branch (app.py lines 1113-1116): the
first 6 non-Maths subjects. -/
def otherSubjects10 (subjects : List Subject) (mathsId : Nat) : List Subject :=
  (subjects.filter (fun s => s.id != mathsId)).take 6

/-- Period 8 of the 6/7 branch: Games (app.py lines 926-948).  The
`allow_no_teacher=True` availability call always returns the `-1` marker,
which is immediately replaced by the placeholder `teachers[0]`; with no
teachers at all the class is skipped (`continue`). -/
def period8Games67 (ctx : GenCtx) (c : SchoolClass) (day : Nat) (st : GenState) : GenState :=
  match gamesSubjectOf ctx.subjects with
  | some gm =>
    match ctx.teachers with
    | [] => st
    | t0 :: _ => addSched st t0.id c.id gm.id day 8
  | none =>
    { st with
      unscheduled := st.unscheduled ++
        [c.name ++ " Day " ++ toString (day + 1) ++ " Period 8: Games subject not found"],
      summary := st.summary ++ [c.name ++ ": Games subject not found in database"] }

/-- The 6/7 branch for one class and day (app.py lines 796-948).  Note the
`continue` on line 912: when the library subject exists but no teachers do,
the whole rest of the class body — including the Games period — is
skipped. -/
def processClass67 (ctx : GenCtx) (st : GenState) (c : SchoolClass) (day : Nat) : GenState :=
  let regular := regularSubjects67 ctx.subjects
  let used := subjectsScheduledToday st.scheds c.id day
  let r := classTeacherPeriod1 ctx c day regular st used
  let st1 := regularPeriodsLoop ctx c day regular false r.period1Assigned
    [1, 2, 3, 4, 5, 6] r.st r.used
  match librarySubjectOf ctx.subjects with
  | some lib =>
    match ctx.teachers with
    | [] => st1
    | t0 :: _ => period8Games67 ctx c day (addSched st1 t0.id c.id lib.id day 7)
  | none =>
    period8Games67 ctx c day
      { st1 with
        unscheduled := st1.unscheduled ++
          [c.name ++ " Day " ++ toString (day + 1) ++ " Period 7: Library subject not found"],
        summary := st1.summary ++ [c.name ++ ": Library subject not found in database"] }

/-- The 8/9 branch for one class and day (app.py lines 950-1067).  Period 8
is Library on Monday/Wednesday/Friday and Games on Tuesday/Thursday; the
`allow_no_teacher=True` call returns `-1`, so the row always carries the
placeholder `teachers[0]` (class skipped if no teachers). -/
def processClass89 (ctx : GenCtx) (st : GenState) (c : SchoolClass) (day : Nat) : GenState :=
  let regular := regularSubjects89 ctx.subjects
  let used := subjectsScheduledToday st.scheds c.id day
  let r := classTeacherPeriod1 ctx c day regular st used
  let st1 := regularPeriodsLoop ctx c day regular true r.period1Assigned
    [1, 2, 3, 4, 5, 6, 7] r.st r.used
  let period8Subject := if day == 0 || day == 2 || day == 4
    then librarySubjectOf ctx.subjects else gamesSubjectOf ctx.subjects
  match period8Subject with
  | some p8 =>
    match ctx.teachers with
    | [] => st1
    | t0 :: _ => addSched st1 t0.id c.id p8.id day 8
  | none =>
    { st1 with
      unscheduled := st1.unscheduled ++
        [c.name ++ " Day " ++ toString (day + 1) ++ " Period 8: Library/Games subject not found"],
      summary := st1.summary ++ [c.name ++ ": Library/Games subject not found in database"] }

/-- `existing_subjects_today` of the grade-10 branch (app.py lines
1077-1086): subject ids of the class's flushed rows for the day, not
counting Maths (which may repeat). -/
def usedToday10 (st : GenState) (c : SchoolClass) (day : Nat) (maths : Subject) : List Nat :=
  (st.scheds.filter (fun s =>
    s.classId == c.id && s.day == day && s.subjectId != maths.id)).map
      (fun s => s.subjectId)

/-- The period-1 Maths teacher of the grade-10 branch (app.py lines
1088-1100): the class teacher on Monday; otherwise a fresh availability
pick with placeholder fallback (which, unlike period 8, is *not* stored in
the binding map). -/
def grade10Period1Teacher (ctx : GenCtx) (st : GenState) (c : SchoolClass)
    (day : Nat) (maths : Subject) : Option Nat :=
  if truthyN c.classTeacherId && day == 0 then
    match c.classTeacherId with
    | none => none
    | some ctid =>
      match findTeacherById ctx.allTeachers ctid with
      | some ct => some ct.id
      | none =>
        freshOrPlaceholder ctx
          (get_available_teacher_for_subject ctx st.scheds maths.id day 1 c.id)
  else
    freshOrPlaceholder ctx
      (get_available_teacher_for_subject ctx st.scheds maths.id day 1 c.id)

/-- Period 1 of the grade-10 branch (app.py lines 1088-1110); the row is
created only under the truthy `if teacher_id:` guard. -/
def grade10Period1 (ctx : GenCtx) (st : GenState) (c : SchoolClass)
    (day : Nat) (maths : Subject) : GenState :=
  match grade10Period1Teacher ctx st c day maths with
  | some tid => if tid == 0 then st else addSched st tid c.id maths.id day 1
  | none => st

/-- Period 8 of the grade-10 branch (app.py lines 1159-1177): reuse the
binding-map Maths entry when present, otherwise pick freshly (with
placeholder fallback) and store the result; the row is created only under
the truthy `if teacher_id:` guard. -/
def grade10Period8 (ctx : GenCtx) (st : GenState) (c : SchoolClass)
    (day : Nat) (maths : Subject) : GenState :=
  match bindLookup st.bindMap c.id maths.id with
  | some tid =>
    if tid == 0 then st else addSched st tid c.id maths.id day 8
  | none =>
    match freshOrPlaceholder ctx
        (get_available_teacher_for_subject ctx st.scheds maths.id day 8 c.id) with
    | some tid =>
      let st3 := { st with bindMap := (c.id, maths.id, tid) :: st.bindMap }
      if tid == 0 then st3 else addSched st3 tid c.id maths.id day 8
    | none => st

/-- The grade-10 branch for one class and day (app.py lines 1069-1177):
skip the class (with report entries) when no Maths subject exists;
otherwise Maths at period 1, the sticky regular loop over the first 6
non-Maths subjects at periods 2-7, and Maths again at period 8.
(On app.py line 1167 Python would store even a `None` teacher into the
binding map; that can only happen with an empty non-leisure teacher list,
which the precondition check rules out before the loop runs, and it
produces no row either way, so the embedding stores only present ids.) -/
def processClass10 (ctx : GenCtx) (st : GenState) (c : SchoolClass) (day : Nat) : GenState :=
  match mathsSubjectOf ctx.subjects with
  | none =>
    { st with
      unscheduled := st.unscheduled ++
        [c.name ++ " Day " ++ toString (day + 1) ++ ": Maths subject not found"],
      summary := st.summary ++ [c.name ++ ": Maths subject not found in database"] }
  | some maths =>
    let used := usedToday10 st c day maths
    let st1 := grade10Period1 ctx st c day maths
    let st2 := regularPeriodsLoop ctx c day (otherSubjects10 ctx.subjects maths.id)
      true false [2, 3, 4, 5, 6, 7] st1 used
    grade10Period8 ctx st2 c day maths

/-- One class on one day (app.py lines 790-1177): dispatch on the grade
band; a grade outside {6,...,10} (or, unreachably here, an unset grade)
falls through every branch and the class is silently skipped for the day.
The `class_subject_teacher_map` per-class initialisation (lines 792-793)
is a no-op in the flat association-list model. -/
def processClassDay (ctx : GenCtx) (st : GenState) (c : SchoolClass) (day : Nat) : GenState :=
  if c.grade = some 6 ∨ c.grade = some 7 then processClass67 ctx st c day
  else if c.grade = some 8 ∨ c.grade = some 9 then processClass89 ctx st c day
  else if c.grade = some 10 then processClass10 ctx st c day
  else st

/-- The pre-check message listing subjects with no teachers (app.py lines
773-782), the only part of `missing_requirements` written before the loop. -/
def initialSummary (teachers : List Teacher) (subjects : List Subject) : List String :=
  let without := (subjects.filter (fun s =>
    (subjectTeachers teachers subjects s.id).isEmpty)).map (fun s => s.name)
  if without.isEmpty then []
  else ["Subjects with no teachers assigned: " ++ commaJoin without]

/-- Initial run state: the schedule table was cleared (and the clearing
committed) at app.py lines 669-671, before any check. -/
def initGenState (teachers : List Teacher) (subjects : List Subject) : GenState :=
  { scheds := [], bindMap := [], unscheduled := [],
    summary := initialSummary teachers subjects }

/-- One full day: every class in store order. -/
def dayFold (ctx : GenCtx) (st : GenState) (day : Nat) : GenState :=
  ctx.classes.foldl (fun st c => processClassDay ctx st c day) st

/-- The full Monday-Friday generation loop (app.py lines 789-1177). -/
def runDays (ctx : GenCtx) (st : GenState) : GenState :=
  (List.range 5).foldl (dayFold ctx) st

/-- The context of a run over the given tables. -/
def mkGenCtx (allTeachers : List Teacher) (classes : List SchoolClass)
    (subjects : List Subject) : GenCtx :=
  { teachers := allTeachers.filter (fun t => !t.isLeisure),
    allTeachers := allTeachers, classes := classes, subjects := subjects }

/-- The final state of the generation loop for the given tables. -/
def generateFull (allTeachers : List Teacher) (classes : List SchoolClass)
    (subjects : List Subject) : GenState :=
  let ctx := mkGenCtx allTeachers classes subjects
  runDays ctx (initGenState ctx.teachers subjects)

/-- Outcome of the generate-schedule endpoint: a 400 refusal with its
message, or success carrying the two report accumulators the claims
mention. -/
inductive GenResult where
  | error (message : String)
  | ok (unscheduled : List String) (summary : List String)
deriving Repr, DecidableEq

/-- `generate_schedule` minus persistence (app.py lines 668-1236): the
precondition checks (which run *after* the delete-all of schedules) and
the generation loop; returns the outcome and the full replacement content
of the schedule table. -/
def generateCore (allTeachers : List Teacher) (classes : List SchoolClass)
    (subjects : List Subject) : GenResult × List Schedule :=
  let teachers := allTeachers.filter (fun t => !t.isLeisure)
  if teachers.isEmpty || classes.isEmpty || subjects.isEmpty then
    (.error "Please add teachers, classes, and subjects first.", [])
  else
    let classesWithoutGrade := (classes.filter (fun c => c.grade.isNone)).map
      (fun c => c.name)
    if !classesWithoutGrade.isEmpty then
      (.error ("Please set grade for classes: " ++ commaJoin classesWithoutGrade), [])
    else
      let final := generateFull allTeachers classes subjects
      (.ok final.unscheduled final.summary, final.scheds)

/-- The generate-schedule endpoint against a store (app.py lines 651-1245):
existing Schedule rows are deleted and the deletion committed *before* the
precondition checks (lines 669-671), so the post-store schedule table is
the run output — empty on refusal.  No other table is touched. -/
def generate_schedule (store : Store) : GenResult × Store :=
  let r := generateCore store.teachers store.classes store.subjects
  (r.1, { store with schedules := r.2 })

/-- One substitution suggestion of the GET absent-teachers handler
(app.py lines 1304-1327). -/
structure SubSuggestion where
  classId : Nat
  period : Nat
  subjectId : Nat
  availableSubstitutes : List Teacher
deriving Repr, DecidableEq

/-- The suggestions for one absence (app.py lines 1286-1327): for each slot
the absent teacher is scheduled at on that weekday, filter all teachers to
the non-leisure ones that are neither this absence's teacher nor any
teacher absent that date, drop those busy at the slot (any Schedule row at
that (weekday, period), regardless of subject or class), and keep the
first 2. -/
def substitutionSuggestionsFor (store : Store) (dayOfWeek : Nat)
    (absences : List Absence) (absence : Absence) : List SubSuggestion :=
  let absentSchedules := store.schedules.filter (fun s =>
    s.teacherId == absence.teacherId && s.day == dayOfWeek)
  let absentTeacherIds := absences.map (fun a => a.teacherId)
  let availableSubstitutes := store.teachers.filter (fun t =>
    !t.isLeisure && t.id != absence.teacherId && !(absentTeacherIds.contains t.id))
  absentSchedules.map (fun sched =>
    let busyTeachers := (store.schedules.filter (fun s =>
      s.day == dayOfWeek && s.period == sched.period)).map (fun s => s.teacherId)
    let potentialSubstitutes := availableSubstitutes.filter (fun t =>
      !(busyTeachers.contains t.id))
    { classId := sched.classId, period := sched.period,
      subjectId := sched.subjectId,
      availableSubstitutes := potentialSubstitutes.take 2 })

/-- GET /api/absent-teachers (app.py lines 1264-1341): for every absence on
the target date, the substitution suggestions. -/
def absentTeachersGet (store : Store) (targetDate : Nat) :
    List (Absence × List SubSuggestion) :=
  let dayOfWeek := pythonWeekday targetDate
  let absences := store.absences.filter (fun a => a.date == targetDate)
  absences.map (fun a => (a, substitutionSuggestionsFor store dayOfWeek absences a))

/-- Outcome of the POST absent-teachers handler. -/
inductive PostResult where
  | error (message : String)
  | ok (a : Absence)
deriving Repr, DecidableEq

/-- POST /api/absent-teachers (app.py lines 1343-1389): refuse a missing
(or zero, by Python truthiness) teacher id; refuse when an Absence row for
the (teacher, date) pair already exists; otherwise append a new
unsubstituted Absence row.  Date-string parsing is modelled as the
already-parsed ordinal. -/
def markTeacherAbsent (store : Store) (teacherId : Option Nat) (targetDate : Nat) :
    PostResult × Store :=
  if !truthyN teacherId then
    (.error "teacher_id is required", store)
  else
    match teacherId with
    | none => (.error "teacher_id is required", store)
    | some tid =>
      match store.absences.find? (fun a => a.teacherId == tid && a.date == targetDate) with
      | some _ =>
        (.error "Teacher is already marked as absent for this date.", store)
      | none =>
        let a : Absence :=
          { teacherId := tid, date := targetDate,
            isSubstituted := false, substituteTeacherId := none }
        (.ok a, { store with absences := store.absences ++ [a] })

/-! ## Basic facts about the endpoint wrappers -/

theorem generate_schedule_post_store (store : Store) :
    (generate_schedule store).2 =
      { store with schedules := (generateCore store.teachers store.classes store.subjects).2 } :=
  rfl

/-- A store whose precondition data is missing but which holds a schedule
row: no teachers, one class, one subject. -/
def storeNoTeachers : Store :=
  { teachers := [],
    subjects := [{ id := 101, name := "English" }],
    classes := [{ id := 50, name := "6A", grade := some 6, classTeacherId := none }],
    schedules := [{ teacherId := 9, classId := 50, subjectId := 101, day := 0, period := 1 }],
    absences := [] }

/-- C1-counterexample.  On a store with no teachers but a non-empty stored
Assignment set, generation refuses — yet the stored Assignment set is *not*
left as it was: the delete-all committed before the checks has emptied it.
This falsifies the claim that "the stored Assignment set is left exactly as
it was before the call (nothing written and nothing deleted)". -/
theorem generate_refusal_deletes_counterexample :
    (generate_schedule storeNoTeachers).1 =
        .error "Please add teachers, classes, and subjects first." ∧
      storeNoTeachers.schedules ≠ [] ∧
      (generate_schedule storeNoTeachers).2.schedules = [] := by
  refine ⟨rfl, ?_, rfl⟩
  decide

/-- C1 (amended).  If a generation precondition fails (no non-leisure
teacher, no class, no subject, or a class with no grade), the run refuses
with a message identifying the failed precondition and writes no new
assignment; but the previously stored Assignment set has already been
deleted (the delete-all is committed before the checks), so the post-call
schedule table is empty rather than untouched, and all other tables are
unchanged. -/
theorem generate_refusal_identifies_and_clears (store : Store)
    (h : (store.teachers.filter (fun t => !t.isLeisure)) = [] ∨
      store.classes = [] ∨ store.subjects = [] ∨
      ∃ c ∈ store.classes, c.grade = none) :
    (∃ msg, (generate_schedule store).1 = .error msg ∧
        (msg = "Please add teachers, classes, and subjects first." ∨
          msg = "Please set grade for classes: " ++
            commaJoin ((store.classes.filter (fun c => c.grade.isNone)).map
              (fun c => c.name)))) ∧
      (generate_schedule store).2 = { store with schedules := [] } := by
  have hsplit :
      ((store.teachers.filter (fun t => !t.isLeisure)).isEmpty ||
        store.classes.isEmpty || store.subjects.isEmpty) = true ∨
      (((store.teachers.filter (fun t => !t.isLeisure)).isEmpty ||
        store.classes.isEmpty || store.subjects.isEmpty) = false ∧
        ∃ c ∈ store.classes, c.grade = none) := by
    rcases h with h | h | h | h
    · left; simp [h]
    · left; simp [h]
    · left; simp [h]
    · by_cases hb : ((store.teachers.filter (fun t => !t.isLeisure)).isEmpty ||
        store.classes.isEmpty || store.subjects.isEmpty) = true
      · exact Or.inl hb
      · exact Or.inr ⟨by simpa using hb, h⟩
  rcases hsplit with hb | ⟨hb, c, hcmem, hcg⟩
  · constructor
    · refine ⟨"Please add teachers, classes, and subjects first.", ?_, Or.inl rfl⟩
      simp only [generate_schedule, generateCore, hb]
      rfl
    · simp only [generate_schedule, generateCore, hb]
      rfl
  · have hmem : c ∈ store.classes.filter (fun x => x.grade.isNone) := by
      simp [List.mem_filter, hcmem, hcg]
    have hne : ((store.classes.filter (fun c => c.grade.isNone)).map
        (fun c => c.name)).isEmpty = false := by
      cases hfz : store.classes.filter (fun x => x.grade.isNone) with
      | nil => rw [hfz] at hmem; exact absurd hmem (List.not_mem_nil c)
      | cons a l => simp [hfz]
    constructor
    · refine ⟨_, ?_, Or.inr rfl⟩
      simp only [generate_schedule, generateCore, hb, hne]
      rfl
    · simp only [generate_schedule, generateCore, hb, hne]
      rfl

/-- Witness for the amended C1 theorem at the concrete store. -/
theorem generate_refusal_identifies_and_clears_witness :
    ((storeNoTeachers.teachers.filter (fun t => !t.isLeisure)) = [] ∨
      storeNoTeachers.classes = [] ∨ storeNoTeachers.subjects = [] ∨
      ∃ c ∈ storeNoTeachers.classes, c.grade = none) ∧
    ((∃ msg, (generate_schedule storeNoTeachers).1 = .error msg ∧
        (msg = "Please add teachers, classes, and subjects first." ∨
          msg = "Please set grade for classes: " ++
            commaJoin ((storeNoTeachers.classes.filter (fun c => c.grade.isNone)).map
              (fun c => c.name)))) ∧
      (generate_schedule storeNoTeachers).2 = { storeNoTeachers with schedules := [] }) :=
  ⟨Or.inl (by decide),
    generate_refusal_identifies_and_clears storeNoTeachers (Or.inl (by decide))⟩

/-! ## C8: idempotence -/

/-- C8.  Generation is idempotent: a second run on the store left by a
first run (identical teacher/class/subject data, no intervening changes)
produces exactly the same schedule table — each run replaces the whole
Assignment set and the rule-based teacher selection is deterministic
first-eligible, so the second run recomputes the same rows. -/
theorem generate_schedule_idempotent (store : Store) :
    (generate_schedule ((generate_schedule store).2)).2.schedules =
      ((generate_schedule store).2).schedules :=
  rfl

/-! ## C9: duplicate absence marking -/

/-- At most one Absence row per (teacher, date) pair. -/
def absencesPairUnique (l : List Absence) : Prop :=
  l.Pairwise (fun a b => ¬(a.teacherId = b.teacherId ∧ a.date = b.date))

/-- C9.  Marking a teacher absent for a (teacher, date) pair that already
has an Absence row fails with an error and leaves the stored Absence set
unchanged; consequently the POST operation preserves per-(teacher, date)
uniqueness of the Absence set, so at most one row per pair can ever be
created through it. -/
theorem markAbsent_duplicate_rejected (store : Store) (x : Option Nat) (d : Nat)
    (hu : absencesPairUnique store.absences) :
    absencesPairUnique ((markTeacherAbsent store x d).2).absences ∧
      ∀ tid, tid ≠ 0 → x = some tid →
        (∃ a ∈ store.absences, a.teacherId = tid ∧ a.date = d) →
        markTeacherAbsent store x d =
          (.error "Teacher is already marked as absent for this date.", store) := by
  unfold markTeacherAbsent
  cases x with
  | none => exact ⟨by simpa using hu, fun tid h0 hx => by cases hx⟩
  | some tid =>
    by_cases h0 : tid = 0
    · subst h0
      exact ⟨by simpa [truthyN] using hu, fun tid h0 hx => by
        cases hx; exact absurd rfl h0⟩
    · have htr : truthyN (some tid) = true := by simp [truthyN, h0]
      cases hfind : store.absences.find? (fun a => a.teacherId == tid && a.date == d) with
      | some a => exact ⟨by simp [htr, hfind, hu], fun tid2 h2 hx hex => by
          cases hx; simp [htr, hfind]⟩
      | none =>
        constructor
        · simp only [htr, hfind]
          simp only [Bool.not_true, Bool.false_eq_true, if_false]
          have hnone : ∀ a ∈ store.absences,
              ¬(a.teacherId = tid ∧ a.date = d) := by
            intro a ha hcon
            have := List.find?_eq_none.mp hfind a ha
            simp [hcon.1, hcon.2] at this
          unfold absencesPairUnique
          rw [List.pairwise_append]
          refine ⟨hu, by simp, ?_⟩
          intro a ha b hb
          simp only [List.mem_singleton] at hb
          subst hb
          intro hcon
          exact hnone a ha ⟨hcon.1, hcon.2⟩
        · intro tid2 h2 hx hex
          cases hx
          rcases hex with ⟨a, ha, h1, hd2⟩
          have := List.find?_eq_none.mp hfind a ha
          simp [h1, hd2] at this

/-- A store with one existing absence of teacher 1 on date 5, for the C9
witness. -/
def absenceT1D5 : Absence :=
  { teacherId := 1, date := 5, isSubstituted := false, substituteTeacherId := none }

def storeWithAbsence : Store :=
  { teachers :=
      [{ id := 1, name := "T1", isClassTeacher := false, isLeisure := false, subjects := [] }],
    subjects := [], classes := [], schedules := [],
    absences := [absenceT1D5] }

/-- Witness: marking teacher 1 absent on date 5 again is rejected and
leaves the store unchanged, and uniqueness is preserved. -/
theorem markAbsent_duplicate_rejected_witness :
    absencesPairUnique ((markTeacherAbsent storeWithAbsence (some 1) 5).2).absences ∧
      markTeacherAbsent storeWithAbsence (some 1) 5 =
        (.error "Teacher is already marked as absent for this date.", storeWithAbsence) := by
  have h := markAbsent_duplicate_rejected storeWithAbsence (some 1) 5
    (by unfold absencesPairUnique storeWithAbsence; simp)
  exact ⟨h.1, h.2 1 (by decide) rfl
    ⟨absenceT1D5, by unfold storeWithAbsence; simp, rfl, rfl⟩⟩

/-! ## C7 and C10: the substitution advisor -/

theorem contains_false_not_mem {l : List Nat} {x : Nat}
    (h : l.contains x = false) : x ∉ l := by
  simp at h
  exact h

/-- C7.  Every suggested substitute for a slot of an absent teacher is
non-leisure, is not the absent teacher, is not absent that date, and has
no Schedule row at that (weekday, period) for any class; each slot offers
at most 2 candidates, namely the first 2 (in stable store enumeration
order) of the teachers passing those filters. -/
theorem substitution_candidates_sound (store : Store) (d : Nat)
    (entry : Absence × List SubSuggestion) (he : entry ∈ absentTeachersGet store d)
    (sugg : SubSuggestion) (hs : sugg ∈ entry.2) :
    sugg.availableSubstitutes.length ≤ 2 ∧
    sugg.availableSubstitutes =
      ((store.teachers.filter (fun t => !t.isLeisure && t.id != entry.1.teacherId &&
          !(((store.absences.filter (fun a => a.date == d)).map
            (fun a => a.teacherId)).contains t.id))).filter
        (fun t => !(((store.schedules.filter (fun s =>
          s.day == pythonWeekday d && s.period == sugg.period)).map
            (fun s => s.teacherId)).contains t.id))).take 2 ∧
    ∀ t ∈ sugg.availableSubstitutes,
      t.isLeisure = false ∧
      t.id ≠ entry.1.teacherId ∧
      (∀ a ∈ store.absences, a.date = d → a.teacherId ≠ t.id) ∧
      (∀ s ∈ store.schedules, s.day = pythonWeekday d → s.period = sugg.period →
        s.teacherId ≠ t.id) := by
  unfold absentTeachersGet at he
  obtain ⟨a, ha, rfl⟩ := List.mem_map.mp he
  simp only at hs
  unfold substitutionSuggestionsFor at hs
  obtain ⟨sched, hsched, rfl⟩ := List.mem_map.mp hs
  refine ⟨?_, rfl, ?_⟩
  · simp
  · intro t ht
    have ht1 := List.mem_of_mem_take ht
    rw [List.mem_filter] at ht1
    obtain ⟨ht2, hbusy⟩ := ht1
    rw [List.mem_filter] at ht2
    obtain ⟨_, hok⟩ := ht2
    simp only [Bool.and_eq_true, Bool.not_eq_eq_eq_not, Bool.not_true, bne_iff_ne,
      ne_eq] at hok hbusy
    refine ⟨by simpa using hok.1.1, by simpa using hok.1.2, ?_, ?_⟩
    · intro a2 ha2 hdate heq
      have : t.id ∈ (store.absences.filter (fun a => a.date == d)).map
          (fun a => a.teacherId) := by
        refine List.mem_map.mpr ⟨a2, ?_, heq⟩
        rw [List.mem_filter]
        exact ⟨ha2, by simp [hdate]⟩
      exact contains_false_not_mem hok.2 this
    · intro s hsmem hday hper heq
      have : t.id ∈ (store.schedules.filter (fun s =>
          s.day == pythonWeekday d && s.period == sched.period)).map
            (fun s => s.teacherId) := by
        refine List.mem_map.mpr ⟨s, ?_, heq⟩
        rw [List.mem_filter]
        exact ⟨hsmem, by simp [hday, hper]⟩
      exact contains_false_not_mem hbusy this

def w7absence : Absence :=
  { teacherId := 1, date := 1, isSubstituted := false, substituteTeacherId := none }

def w7t2 : Teacher :=
  { id := 2, name := "B", isClassTeacher := false, isLeisure := false, subjects := [] }

/-- Store for the C7 witness: teacher 1 absent on date 1 (a Monday) and
scheduled at (Monday, period 3); teacher 2 free. -/
def w7store : Store :=
  { teachers :=
      [{ id := 1, name := "A", isClassTeacher := false, isLeisure := false, subjects := [] },
        w7t2],
    subjects := [], classes := [],
    schedules := [{ teacherId := 1, classId := 50, subjectId := 101, day := 0, period := 3 }],
    absences := [w7absence] }

def w7sugg : SubSuggestion :=
  { classId := 50, period := 3, subjectId := 101, availableSubstitutes := [w7t2] }

def w7entry : Absence × List SubSuggestion := (w7absence, [w7sugg])

/-- Witness for the C7 theorem at a concrete store. -/
theorem substitution_candidates_sound_witness :
    w7entry ∈ absentTeachersGet w7store 1 ∧ w7sugg ∈ w7entry.2 ∧
      ∀ t ∈ w7sugg.availableSubstitutes,
        t.isLeisure = false ∧
        t.id ≠ w7entry.1.teacherId ∧
        (∀ a ∈ w7store.absences, a.date = 1 → a.teacherId ≠ t.id) ∧
        (∀ s ∈ w7store.schedules, s.day = pythonWeekday 1 → s.period = w7sugg.period →
          s.teacherId ≠ t.id) :=
  ⟨by decide, by decide,
    (substitution_candidates_sound w7store 1 w7entry (by decide) w7sugg (by decide)).2.2⟩

/-- C10.  Substitute-candidate busyness ignores the subject entirely: a
teacher with *any* Schedule row at the queried (weekday, period) — in
particular one whose only row there is a Library or Games placeholder —
is excluded from the candidates for that slot. -/
theorem busy_excludes_any_scheduled_teacher (store : Store) (d : Nat)
    (entry : Absence × List SubSuggestion) (he : entry ∈ absentTeachersGet store d)
    (sugg : SubSuggestion) (hs : sugg ∈ entry.2)
    (t : Teacher) (r : Schedule) (hr : r ∈ store.schedules)
    (hteacher : r.teacherId = t.id) (hday : r.day = pythonWeekday d)
    (hperiod : r.period = sugg.period) :
    t ∉ sugg.availableSubstitutes := by
  unfold absentTeachersGet at he
  obtain ⟨a, ha, rfl⟩ := List.mem_map.mp he
  simp only at hs
  unfold substitutionSuggestionsFor at hs
  obtain ⟨sched, hsched, rfl⟩ := List.mem_map.mp hs
  intro ht
  have ht1 := List.mem_of_mem_take ht
  rw [List.mem_filter] at ht1
  obtain ⟨_, hbusy⟩ := ht1
  rw [Bool.not_eq_eq_eq_not, Bool.not_true] at hbusy
  refine contains_false_not_mem hbusy ?_
  refine List.mem_map.mpr ⟨r, ?_, hteacher⟩
  rw [List.mem_filter]
  exact ⟨hr, by simp [hday, hperiod]⟩

def w10library : Subject := { id := 300, name := "Library" }

/-- Store for the C10 witness: teacher 2's only row at (Monday, period 3)
is a Library placeholder row, yet teacher 2 is excluded from the
substitutes for absent teacher 1's slot at that period. -/
def w10store : Store :=
  { teachers :=
      [{ id := 1, name := "A", isClassTeacher := false, isLeisure := false, subjects := [] },
        w7t2],
    subjects := [w10library], classes := [],
    schedules :=
      [{ teacherId := 1, classId := 50, subjectId := 101, day := 0, period := 3 },
        { teacherId := 2, classId := 51, subjectId := 300, day := 0, period := 3 }],
    absences := [w7absence] }

def w10sugg : SubSuggestion :=
  { classId := 50, period := 3, subjectId := 101, availableSubstitutes := [] }

/-- Witness for the C10 theorem: teacher 2, whose only row at the slot is
the Library placeholder row, is not among the candidates. -/
theorem busy_excludes_any_scheduled_teacher_witness :
    (w7absence, [w10sugg]) ∈ absentTeachersGet w10store 1 ∧
      w10sugg ∈ [w10sugg] ∧
      ({ teacherId := 2, classId := 51, subjectId := 300, day := 0, period := 3 } :
        Schedule) ∈ w10store.schedules ∧
      w7t2 ∉ w10sugg.availableSubstitutes :=
  ⟨by decide, by decide, by decide,
    busy_excludes_any_scheduled_teacher w10store 1 (w7absence, [w10sugg]) (by decide)
      w10sugg (by decide) w7t2
      { teacherId := 2, classId := 51, subjectId := 300, day := 0, period := 3 }
      (by decide) rfl (by decide) rfl⟩

/-! ## Counterexample inputs for C2, C3, C4, C5 -/

def cex2T1 : Teacher :=
  { id := 1, name := "T1", isClassTeacher := false, isLeisure := false, subjects := [101] }

def cex2CT : Teacher :=
  { id := 2, name := "CT", isClassTeacher := true, isLeisure := false, subjects := [] }

def cex2S : Subject := { id := 101, name := "English" }

def cex2C : SchoolClass :=
  { id := 50, name := "6A", grade := some 6, classTeacherId := some 2 }

/-- C2-counterexample.  For a grade-6 class, the (class, subject) pair
(50, 101) gets teacher 2 (the class teacher) bound on day 0 — the binding
is even recorded in the sticky map — yet the day-1 assignment for the same
pair uses teacher 1: the grade-6/7 branch never consults the binding map,
falsifying "this also holds for classes with grade 6 or 7". -/
theorem sticky_grade67_counterexample :
    (⟨2, 50, 101, 0, 1⟩ : Schedule) ∈ (generateFull [cex2T1, cex2CT] [cex2C] [cex2S]).scheds ∧
      bindLookup (generateFull [cex2T1, cex2CT] [cex2C] [cex2S]).bindMap 50 101 = some 2 ∧
      (⟨1, 50, 101, 1, 1⟩ : Schedule) ∈ (generateFull [cex2T1, cex2CT] [cex2C] [cex2S]).scheds ∧
      (1 : Nat) ≠ 2 := by
  refine ⟨by decide, by decide, by decide, by decide⟩

def cex3T1 : Teacher :=
  { id := 1, name := "T1", isClassTeacher := false, isLeisure := false, subjects := [101] }

def cex3U : Teacher :=
  { id := 2, name := "U", isClassTeacher := false, isLeisure := false, subjects := [101] }

def cex3CT : Teacher :=
  { id := 3, name := "CT", isClassTeacher := true, isLeisure := false, subjects := [] }

def cex3S : Subject := { id := 101, name := "English" }

def cex3K1 : SchoolClass :=
  { id := 51, name := "6A", grade := some 6, classTeacherId := some 3 }

def cex3K2 : SchoolClass :=
  { id := 52, name := "6B", grade := some 6, classTeacherId := none }

def cex3K3 : SchoolClass :=
  { id := 53, name := "8A", grade := some 8, classTeacherId := none }

/-- C3-counterexample.  In this run teacher 2 — who is not the placeholder
`teachers[0]` (id 1) — is assigned to two different classes (52 and 53) at
the same (day 1, period 1) slot, on a subject that is neither Library nor
Games: class 52 picks teacher 2 freshly on day 1 (teacher 1 is busy
there), while class 53 reuses its day-0 sticky binding of teacher 2
without an availability check.  The conflict-free invariant fails. -/
theorem conflict_free_counterexample :
    (⟨2, 52, 101, 1, 1⟩ : Schedule) ∈
        (generateFull [cex3T1, cex3U, cex3CT] [cex3K1, cex3K2, cex3K3] [cex3S]).scheds ∧
      (⟨2, 53, 101, 1, 1⟩ : Schedule) ∈
        (generateFull [cex3T1, cex3U, cex3CT] [cex3K1, cex3K2, cex3K3] [cex3S]).scheds ∧
      (52 : Nat) ≠ 53 ∧
      librarySubjectOf [cex3S] = none ∧ gamesSubjectOf [cex3S] = none ∧
      (2 : Nat) ≠ 1 := by
  refine ⟨by decide, by decide, by decide, by decide, by decide, by decide⟩

def cex4TM : Teacher :=
  { id := 1, name := "TM", isClassTeacher := false, isLeisure := false, subjects := [201] }

def cex4CT : Teacher :=
  { id := 2, name := "CT", isClassTeacher := true, isLeisure := false, subjects := [] }

def cex4M : Subject := { id := 201, name := "Maths" }

def cex4C : SchoolClass :=
  { id := 60, name := "10A", grade := some 10, classTeacherId := some 2 }

/-- C4-counterexample.  For a grade-10 class with a class teacher, on day 0
period 1 carries Maths with teacher 2 (the class teacher, who is assigned
without being bound) while period 8 carries Maths with teacher 1 (a fresh
availability pick, since the period-1 pass never writes the binding map):
the two Maths periods do not use the same teacher. -/
theorem grade10_maths_teacher_counterexample :
    (⟨2, 60, 201, 0, 1⟩ : Schedule) ∈ (generateFull [cex4TM, cex4CT] [cex4C] [cex4M]).scheds ∧
      (⟨1, 60, 201, 0, 8⟩ : Schedule) ∈ (generateFull [cex4TM, cex4CT] [cex4C] [cex4M]).scheds ∧
      (∀ r ∈ (generateFull [cex4TM, cex4CT] [cex4C] [cex4M]).scheds,
        r.day = 0 → r.period = 1 → r.teacherId = 2) ∧
      (∀ r ∈ (generateFull [cex4TM, cex4CT] [cex4C] [cex4M]).scheds,
        r.day = 0 → r.period = 8 → r.teacherId = 1) ∧
      (2 : Nat) ≠ 1 := by
  refine ⟨by decide, by decide, by decide, by decide, by decide⟩

def cex5T : Teacher :=
  { id := 1, name := "T1", isClassTeacher := false, isLeisure := false, subjects := [101] }

def cex5S : Subject := { id := 101, name := "English" }

def cex5C : SchoolClass :=
  { id := 70, name := "11A", grade := some 11, classTeacherId := none }

def cex5store : Store :=
  { teachers := [cex5T], subjects := [cex5S], classes := [cex5C],
    schedules := [], absences := [] }

/-- C5-counterexample.  A class whose grade is set but outside the
supported bands (grade 11) does *not* make generation refuse: the run
reports success and silently produces no assignment at all for that class
(here: an entirely empty timetable). -/
theorem grade_out_of_band_counterexample :
    cex5C ∈ cex5store.classes ∧ cex5C.grade = some 11 ∧
      (generate_schedule cex5store).1 = .ok [] [] ∧
      (generate_schedule cex5store).2.schedules = [] := by
  refine ⟨by decide, by decide, by decide, by decide⟩

/-! ## C3 (amended): soundness of the availability check -/

/-- C3 (amended).  Whenever a teacher is *freshly selected* through the
availability check, that teacher teaches the subject and is not already
assigned at that (day, period) to any other class in the schedule state at
selection time.  (Full conflict-freedom of the final assignment set fails,
because sticky reuse on later days skips this check — see the
counterexample.) -/
theorem available_teacher_not_busy (ctx : GenCtx) (scheds : List Schedule)
    (sid day period excl t : Nat)
    (h : get_available_teacher_for_subject ctx scheds sid day period excl = some t) :
    t ∈ subjectTeachers ctx.teachers ctx.subjects sid ∧
      ∀ r ∈ scheds, r.day = day → r.period = period → r.classId ≠ excl →
        r.teacherId ≠ t := by
  unfold get_available_teacher_for_subject at h
  by_cases hemp : (subjectTeachers ctx.teachers ctx.subjects sid).isEmpty
  · rw [if_pos hemp] at h
    cases h
  · rw [if_neg hemp] at h
    refine ⟨List.mem_of_find?_eq_some h, ?_⟩
    have hpred := List.find?_some h
    rw [Bool.not_eq_eq_eq_not, Bool.not_true] at hpred
    intro r hr hday hper hcl hteq
    refine contains_false_not_mem hpred ?_
    refine List.mem_map.mpr ⟨r, ?_, hteq⟩
    rw [List.mem_filter]
    refine ⟨hr, ?_⟩
    simp [hday, hper, hcl]

def w3ctx : GenCtx := mkGenCtx
  [{ id := 1, name := "T1", isClassTeacher := false, isLeisure := false, subjects := [101] }]
  [] [{ id := 101, name := "English" }]

def w3scheds : List Schedule :=
  [{ teacherId := 5, classId := 99, subjectId := 101, day := 0, period := 1 }]

/-- Witness for the amended C3 theorem: a concrete fresh selection returns
teacher 1, who is eligible and not among the rows already flushed at the
slot. -/
theorem available_teacher_not_busy_witness :
    get_available_teacher_for_subject w3ctx w3scheds 101 0 1 50 = some 1 ∧
      (1 : Nat) ∈ subjectTeachers w3ctx.teachers w3ctx.subjects 101 ∧
      ∀ r ∈ w3scheds, r.day = 0 → r.period = 1 → r.classId ≠ 50 → r.teacherId ≠ 1 :=
  ⟨by decide,
    (available_teacher_not_busy w3ctx w3scheds 101 0 1 50 1 (by decide)).1,
    (available_teacher_not_busy w3ctx w3scheds 101 0 1 50 1 (by decide)).2⟩

/-! ## Run structure: every block only appends rows and bindings tagged
with its own class and day -/

theorem bindLookup_cons_self (m : List (Nat × Nat × Nat)) (c s v : Nat) :
    bindLookup ((c, s, v) :: m) c s = some v := by
  unfold bindLookup
  simp [List.find?]

theorem bindLookup_cons_ne (m : List (Nat × Nat × Nat)) (c' s' v c s : Nat)
    (h : c' ≠ c ∨ s' ≠ s) :
    bindLookup ((c', s', v) :: m) c s = bindLookup m c s := by
  unfold bindLookup
  have : ((c', s', v).1 == c && (c', s', v).2.1 == s) = false := by
    rcases h with h | h <;> simp [h]
  simp [List.find?, this]

/-- A teacher id a generation run may store in the sticky binding map: a
non-zero id (a truthy fresh pick) or the id of some stored teacher. -/
def okValue (ctx : GenCtx) (v : Nat) : Prop :=
  v ≠ 0 ∨ v ∈ (ctx.teachers ++ ctx.allTeachers).map (fun t => t.id)

/-- How the state may change across one class/day block: rows are appended
and carry that block's class and day; binding entries are prepended, carry
that class, and hold plausible teacher ids. -/
def BlockDelta (ctx : GenCtx) (c : SchoolClass) (day : Nat) (st st' : GenState) : Prop :=
  (∃ rows, st'.scheds = st.scheds ++ rows ∧ ∀ r ∈ rows, r.classId = c.id ∧ r.day = day) ∧
  (∃ entries, st'.bindMap = entries ++ st.bindMap ∧
    ∀ e ∈ entries, e.1 = c.id ∧ okValue ctx e.2.2)

theorem blockDelta_refl (ctx : GenCtx) (c : SchoolClass) (day : Nat) (st : GenState) :
    BlockDelta ctx c day st st :=
  ⟨⟨[], by simp, by simp⟩, ⟨[], by simp, by simp⟩⟩

theorem blockDelta_trans {ctx : GenCtx} {c : SchoolClass} {day : Nat} {s1 s2 s3 : GenState}
    (h1 : BlockDelta ctx c day s1 s2) (h2 : BlockDelta ctx c day s2 s3) :
    BlockDelta ctx c day s1 s3 := by
  obtain ⟨⟨r1, hr1, ht1⟩, ⟨e1, he1, hv1⟩⟩ := h1
  obtain ⟨⟨r2, hr2, ht2⟩, ⟨e2, he2, hv2⟩⟩ := h2
  refine ⟨⟨r1 ++ r2, ?_, ?_⟩, ⟨e2 ++ e1, ?_, ?_⟩⟩
  · rw [hr2, hr1, List.append_assoc]
  · intro r hr
    rcases List.mem_append.mp hr with h | h
    · exact ht1 r h
    · exact ht2 r h
  · rw [he2, he1, List.append_assoc]
  · intro e he
    rcases List.mem_append.mp he with h | h
    · exact hv2 e h
    · exact hv1 e h

theorem blockDelta_addSched (ctx : GenCtx) (c : SchoolClass) (day : Nat)
    (st : GenState) (tid sid period : Nat) :
    BlockDelta ctx c day st (addSched st tid c.id sid day period) := by
  refine ⟨⟨_, rfl, ?_⟩, ⟨[], by simp [addSched], by simp⟩⟩
  intro r hr
  rw [List.mem_singleton] at hr
  subst hr
  exact ⟨rfl, rfl⟩

theorem blockDelta_bindCons (ctx : GenCtx) (c : SchoolClass) (day : Nat)
    (st : GenState) (sid v : Nat) (hv : okValue ctx v) :
    BlockDelta ctx c day st { st with bindMap := (c.id, sid, v) :: st.bindMap } := by
  refine ⟨⟨[], by simp, by simp⟩, ⟨[(c.id, sid, v)], by simp, ?_⟩⟩
  intro e he
  rw [List.mem_singleton] at he
  subst he
  exact ⟨rfl, hv⟩

theorem blockDelta_unsched (ctx : GenCtx) (c : SchoolClass) (day : Nat)
    (st : GenState) (u s : List String) :
    BlockDelta ctx c day st { st with unscheduled := u, summary := s } :=
  ⟨⟨[], by simp, by simp⟩, ⟨[], by simp, by simp⟩⟩

theorem freshOrPlaceholder_ok (ctx : GenCtx) (f : Option Nat) (v : Nat)
    (h : freshOrPlaceholder ctx f = some v) : okValue ctx v := by
  unfold freshOrPlaceholder at h
  split at h
  · next htr =>
    left
    rw [h] at htr
    simp [truthyN] at htr
    exact htr
  · right
    unfold headTeacherIdOpt at h
    split at h
    · cases h
    · next t ts heq =>
      cases h
      refine List.mem_map.mpr ⟨t, ?_, rfl⟩
      rw [List.mem_append]
      exact Or.inl (by rw [heq]; exact List.mem_cons_self t ts)

theorem classTeacherPeriod1_delta (ctx : GenCtx) (c : SchoolClass) (day : Nat)
    (reg : List Subject) (st : GenState) (used : List Nat) :
    BlockDelta ctx c day st (classTeacherPeriod1 ctx c day reg st used).st := by
  unfold classTeacherPeriod1
  split
  · split
    · exact blockDelta_refl ctx c day st
    · split
      · rename_i ct s0 rest heq
        dsimp only
        apply blockDelta_trans (blockDelta_addSched ctx c day st ct.id _ 1)
        refine blockDelta_bindCons ctx c day _ _ ct.id (Or.inr ?_)
        refine List.mem_map.mpr ⟨ct, ?_, rfl⟩
        rw [List.mem_append]
        exact Or.inr (List.mem_of_find?_eq_some heq)
      · exact blockDelta_refl ctx c day st
  · exact blockDelta_refl ctx c day st

theorem regularPeriodsLoop_delta (ctx : GenCtx) (c : SchoolClass) (day : Nat)
    (reg : List Subject) (sticky p1A : Bool) :
    ∀ (ps : List Nat) (st : GenState) (used : List Nat),
      BlockDelta ctx c day st (regularPeriodsLoop ctx c day reg sticky p1A ps st used) := by
  intro ps
  induction ps with
  | nil => intro st used; exact blockDelta_refl ctx c day st
  | cons p rest ih =>
    intro st used
    unfold regularPeriodsLoop
    split
    · exact ih st used
    · split
      · exact blockDelta_refl ctx c day st
      · rename_i subject hfind
        split
        · rename_i teacherId hb
          exact blockDelta_trans (blockDelta_addSched ctx c day st teacherId _ p) (ih _ _)
        · split
          · exact blockDelta_trans (blockDelta_unsched ctx c day st _ _) (ih _ _)
          · rename_i teacherId hfp
            have hok := freshOrPlaceholder_ok ctx _ teacherId hfp
            cases sticky with
            | true =>
              dsimp only
              refine blockDelta_trans (blockDelta_bindCons ctx c day st subject.id teacherId hok) ?_
              exact blockDelta_trans (blockDelta_addSched ctx c day _ teacherId _ p) (ih _ _)
            | false =>
              dsimp only
              exact blockDelta_trans (blockDelta_addSched ctx c day st teacherId _ p) (ih _ _)

theorem period8Games67_delta (ctx : GenCtx) (c : SchoolClass) (day : Nat) (st : GenState) :
    BlockDelta ctx c day st (period8Games67 ctx c day st) := by
  unfold period8Games67
  split
  · split
    · exact blockDelta_refl ctx c day st
    · rename_i t0 ts heq
      exact blockDelta_addSched ctx c day st t0.id _ 8
  · exact blockDelta_unsched ctx c day st _ _

theorem processClass67_delta (ctx : GenCtx) (c : SchoolClass) (day : Nat) (st : GenState) :
    BlockDelta ctx c day st (processClass67 ctx st c day) := by
  unfold processClass67
  dsimp only
  split
  · split
    · exact blockDelta_trans (classTeacherPeriod1_delta ctx c day _ st _)
        (regularPeriodsLoop_delta ctx c day _ false _ _ _ _)
    · rename_i t0 ts heq
      apply blockDelta_trans (classTeacherPeriod1_delta ctx c day _ st _)
      apply blockDelta_trans (regularPeriodsLoop_delta ctx c day _ false _ _ _ _)
      apply blockDelta_trans (blockDelta_addSched ctx c day _ t0.id _ 7)
      exact period8Games67_delta ctx c day _
  · apply blockDelta_trans (classTeacherPeriod1_delta ctx c day _ st _)
    apply blockDelta_trans (regularPeriodsLoop_delta ctx c day _ false _ _ _ _)
    apply blockDelta_trans (blockDelta_unsched ctx c day _ _ _)
    exact period8Games67_delta ctx c day _

theorem processClass89_delta (ctx : GenCtx) (c : SchoolClass) (day : Nat) (st : GenState) :
    BlockDelta ctx c day st (processClass89 ctx st c day) := by
  unfold processClass89
  dsimp only
  split
  · split
    · exact blockDelta_trans (classTeacherPeriod1_delta ctx c day _ st _)
        (regularPeriodsLoop_delta ctx c day _ true _ _ _ _)
    · rename_i t0 ts heq
      apply blockDelta_trans (classTeacherPeriod1_delta ctx c day _ st _)
      apply blockDelta_trans (regularPeriodsLoop_delta ctx c day _ true _ _ _ _)
      exact blockDelta_addSched ctx c day _ t0.id _ 8
  · apply blockDelta_trans (classTeacherPeriod1_delta ctx c day _ st _)
    apply blockDelta_trans (regularPeriodsLoop_delta ctx c day _ true _ _ _ _)
    exact blockDelta_unsched ctx c day _ _ _

theorem grade10Period1_delta (ctx : GenCtx) (c : SchoolClass) (day : Nat)
    (st : GenState) (maths : Subject) :
    BlockDelta ctx c day st (grade10Period1 ctx st c day maths) := by
  unfold grade10Period1
  split
  · split
    · exact blockDelta_refl ctx c day st
    · exact blockDelta_addSched ctx c day st _ _ 1
  · exact blockDelta_refl ctx c day st

theorem grade10Period8_delta (ctx : GenCtx) (c : SchoolClass) (day : Nat)
    (st : GenState) (maths : Subject) :
    BlockDelta ctx c day st (grade10Period8 ctx st c day maths) := by
  unfold grade10Period8
  split
  · rename_i tid hb
    split
    · exact blockDelta_refl ctx c day st
    · exact blockDelta_addSched ctx c day st tid _ 8
  · split
    · rename_i tid heq
      have hok := freshOrPlaceholder_ok ctx _ tid heq
      dsimp only
      refine blockDelta_trans (blockDelta_bindCons ctx c day st maths.id tid hok) ?_
      split
      · exact blockDelta_refl ctx c day _
      · exact blockDelta_addSched ctx c day _ tid _ 8
    · exact blockDelta_refl ctx c day st

theorem processClass10_delta (ctx : GenCtx) (c : SchoolClass) (day : Nat) (st : GenState) :
    BlockDelta ctx c day st (processClass10 ctx st c day) := by
  unfold processClass10
  split
  · exact blockDelta_unsched ctx c day st _ _
  · rename_i maths hm
    dsimp only
    apply blockDelta_trans (grade10Period1_delta ctx c day st maths)
    apply blockDelta_trans (regularPeriodsLoop_delta ctx c day _ true false _ _ _)
    exact grade10Period8_delta ctx c day _ maths

theorem processClassDay_delta (ctx : GenCtx) (c : SchoolClass) (day : Nat) (st : GenState) :
    BlockDelta ctx c day st (processClassDay ctx st c day) := by
  unfold processClassDay
  split
  · exact processClass67_delta ctx c day st
  · split
    · exact processClass89_delta ctx c day st
    · split
      · exact processClass10_delta ctx c day st
      · exact blockDelta_refl ctx c day st

theorem bindLookup_append_no_key (entries m : List (Nat × Nat × Nat)) (cid sid : Nat)
    (h : ∀ e ∈ entries, e.1 ≠ cid) :
    bindLookup (entries ++ m) cid sid = bindLookup m cid sid := by
  induction entries with
  | nil => rfl
  | cons e rest ih =>
    obtain ⟨a, b, v⟩ := e
    have ha : a ≠ cid := h (a, b, v) (List.mem_cons_self _ _)
    rw [List.cons_append, bindLookup_cons_ne _ a b v cid sid (Or.inl ha)]
    exact ih (fun e he => h e (List.mem_cons_of_mem _ he))

theorem blockDelta_filter_stable {ctx : GenCtx} {c : SchoolClass} {day : Nat}
    {st st' : GenState} (h : BlockDelta ctx c day st st') (p : Schedule → Bool)
    (hp : ∀ r : Schedule, r.classId = c.id → r.day = day → p r = false) :
    st'.scheds.filter p = st.scheds.filter p := by
  obtain ⟨⟨rows, hr, ht⟩, _⟩ := h
  rw [hr, List.filter_append]
  have hnil : rows.filter p = [] := by
    rw [List.filter_eq_nil_iff]
    intro r hrm
    rw [hp r (ht r hrm).1 (ht r hrm).2]
    simp
  rw [hnil, List.append_nil]

theorem blockDelta_bindLookup_stable {ctx : GenCtx} {c : SchoolClass} {day : Nat}
    {st st' : GenState} (h : BlockDelta ctx c day st st') (cid sid : Nat)
    (hc : cid ≠ c.id) :
    bindLookup st'.bindMap cid sid = bindLookup st.bindMap cid sid := by
  obtain ⟨_, ⟨entries, he, hv⟩⟩ := h
  rw [he]
  exact bindLookup_append_no_key entries st.bindMap cid sid
    (fun e hem => by rw [(hv e hem).1]; exact fun hx => hc hx.symm)

theorem foldClasses_filter_stable (ctx : GenCtx) (day : Nat) (p : Schedule → Bool) :
    ∀ (l : List SchoolClass) (st : GenState),
      (∀ c2 ∈ l, ∀ r : Schedule, r.classId = c2.id → r.day = day → p r = false) →
      ((l.foldl (fun st c => processClassDay ctx st c day) st).scheds.filter p =
        st.scheds.filter p) := by
  intro l
  induction l with
  | nil => intro st _; rfl
  | cons c2 rest ih =>
    intro st hp
    rw [List.foldl_cons]
    rw [ih (processClassDay ctx st c2 day)
      (fun c3 h3 => hp c3 (List.mem_cons_of_mem _ h3))]
    exact blockDelta_filter_stable (processClassDay_delta ctx c2 day st) p
      (hp c2 (List.mem_cons_self _ _))

theorem foldDays_filter_stable (ctx : GenCtx) (p : Schedule → Bool) :
    ∀ (ds : List Nat) (st : GenState),
      (∀ d2 ∈ ds, ∀ r : Schedule, r.day = d2 → p r = false) →
      ((ds.foldl (dayFold ctx) st).scheds.filter p = st.scheds.filter p) := by
  intro ds
  induction ds with
  | nil => intro st _; rfl
  | cons d2 rest ih =>
    intro st hp
    rw [List.foldl_cons]
    rw [ih (dayFold ctx st d2) (fun d3 h3 => hp d3 (List.mem_cons_of_mem _ h3))]
    unfold dayFold
    exact foldClasses_filter_stable ctx d2 p ctx.classes st
      (fun c2 _ r _ hday => hp d2 (List.mem_cons_self _ _) r hday)

theorem foldClasses_P (ctx : GenCtx) (day : Nat) (P : GenState → Prop)
    (hPstep : ∀ st c2 d2, c2 ∈ ctx.classes → P st → P (processClassDay ctx st c2 d2)) :
    ∀ (l : List SchoolClass) (st : GenState), (∀ c2 ∈ l, c2 ∈ ctx.classes) → P st →
      P (l.foldl (fun st c => processClassDay ctx st c day) st) := by
  intro l
  induction l with
  | nil => intro st _ h; exact h
  | cons c2 rest ih =>
    intro st hmem h
    rw [List.foldl_cons]
    exact ih _ (fun c3 h3 => hmem c3 (List.mem_cons_of_mem _ h3))
      (hPstep st c2 day (hmem c2 (List.mem_cons_self _ _)) h)

theorem foldDays_P (ctx : GenCtx) (P : GenState → Prop)
    (hPstep : ∀ st c2 d2, c2 ∈ ctx.classes → P st → P (processClassDay ctx st c2 d2)) :
    ∀ (ds : List Nat) (st : GenState), P st → P (ds.foldl (dayFold ctx) st) := by
  intro ds
  induction ds with
  | nil => intro st h; exact h
  | cons d2 rest ih =>
    intro st h
    rw [List.foldl_cons]
    refine ih _ ?_
    exact foldClasses_P ctx d2 P hPstep ctx.classes st (fun c2 h2 => h2) h

theorem nodup_map_split_ne {α β : Type} (f : α → β) {l1 l2 : List α} {a : α}
    (h : (((l1 ++ a :: l2).map f)).Nodup) :
    (∀ x ∈ l1, f x ≠ f a) ∧ (∀ x ∈ l2, f x ≠ f a) := by
  rw [List.map_append, List.nodup_append] at h
  obtain ⟨h1, h2, hdisj⟩ := h
  rw [List.map_cons, List.nodup_cons] at h2
  constructor
  · intro x hx heq
    have hmem : f x ∈ f a :: List.map f l2 := by
      rw [heq]
      exact List.mem_cons_self _ _
    rw [← List.map_cons] at hmem
    exact hdisj (List.mem_map_of_mem f hx) hmem
  · intro x hx heq
    exact h2.1 (by rw [← heq]; exact List.mem_map_of_mem f hx)

/-- The master run/block correspondence: for a class `c` (unique by id) and
a weekday `d`, the rows of the full run for (c, d) are exactly the rows its
own (d, c)-block appends, and that block runs from a state `stPre` with no
(c, d) rows yet, satisfying any step-preserved predicate `P`. -/
theorem run_filter_eq_block (ctx : GenCtx)
    (hndup : (ctx.classes.map (fun c => c.id)).Nodup)
    (c : SchoolClass) (hc : c ∈ ctx.classes) (d : Nat) (hd : d < 5)
    (st0 : GenState) (h0 : st0.scheds = [])
    (P : GenState → Prop) (hP0 : P st0)
    (hPstep : ∀ st c2 d2, c2 ∈ ctx.classes → P st → P (processClassDay ctx st c2 d2)) :
    ∃ stPre, P stPre ∧
      stPre.scheds.filter (fun r => r.classId == c.id && r.day == d) = [] ∧
      (runDays ctx st0).scheds.filter (fun r => r.classId == c.id && r.day == d) =
        (processClassDay ctx stPre c d).scheds.filter
          (fun r => r.classId == c.id && r.day == d) := by
  have hpday : ∀ d2, d2 ≠ d → ∀ r : Schedule, r.day = d2 →
      (fun r : Schedule => r.classId == c.id && r.day == d) r = false := by
    intro d2 hne r hday
    have : (r.day == d) = false := by
      rw [hday]
      exact beq_false_of_ne hne
    simp [this]
  have hpclass : ∀ c2 : SchoolClass, c2.id ≠ c.id → ∀ r : Schedule,
      r.classId = c2.id → r.day = d →
      (fun r : Schedule => r.classId == c.id && r.day == d) r = false := by
    intro c2 hne r hcl _
    have : (r.classId == c.id) = false := by
      rw [hcl]
      exact beq_false_of_ne hne
    simp [this]
  obtain ⟨L1, L2, hLsplit⟩ := List.append_of_mem hc
  have hids := hndup
  rw [hLsplit] at hids
  obtain ⟨hL1ne, hL2ne⟩ := nodup_map_split_ne (fun c : SchoolClass => c.id) hids
  have hdmem : d ∈ List.range 5 := List.mem_range.mpr hd
  obtain ⟨D1, D2, hDsplit⟩ := List.append_of_mem hdmem
  have hDnodup : (List.range 5).Nodup := List.nodup_range 5
  rw [hDsplit] at hDnodup
  have hD12 : (∀ x ∈ D1, x ≠ d) ∧ ∀ x ∈ D2, x ≠ d := by
    have := nodup_map_split_ne (fun x : Nat => x) (by simpa using hDnodup)
    simpa using this
  unfold runDays
  rw [hDsplit, List.foldl_append, List.foldl_cons]
  have hstep1 : dayFold ctx (D1.foldl (dayFold ctx) st0) d =
      L2.foldl (fun st c2 => processClassDay ctx st c2 d)
        (processClassDay ctx
          (L1.foldl (fun st c2 => processClassDay ctx st c2 d)
            (D1.foldl (dayFold ctx) st0)) c d) := by
    unfold dayFold
    rw [hLsplit, List.foldl_append, List.foldl_cons]
  refine ⟨L1.foldl (fun st c2 => processClassDay ctx st c2 d)
    (D1.foldl (dayFold ctx) st0), ?_, ?_, ?_⟩
  · refine foldClasses_P ctx d P hPstep L1 _ ?_ ?_
    · intro c2 h2
      rw [hLsplit]
      exact List.mem_append.mpr (Or.inl h2)
    · exact foldDays_P ctx P hPstep D1 st0 hP0
  · rw [foldClasses_filter_stable ctx d _ L1 _
      (fun c2 h2 r hcl hday => hpclass c2 (hL1ne c2 h2) r hcl hday)]
    rw [foldDays_filter_stable ctx _ D1 st0
      (fun d2 h2 r hday => hpday d2 (hD12.1 d2 h2) r hday)]
    rw [h0]
    rfl
  · rw [foldDays_filter_stable ctx _ D2 _
      (fun d2 h2 r hday => hpday d2 (hD12.2 d2 h2) r hday)]
    rw [hstep1]
    rw [foldClasses_filter_stable ctx d _ L2 _
      (fun c2 h2 r hcl hday => hpclass c2 (hL2ne c2 h2) r hcl hday)]

theorem find?_unused_skip_prefix (used : List Nat) :
    ∀ (pre post : List Subject), (∀ s ∈ pre, s.id ∈ used) →
      (pre ++ post).find? (fun s => !(used.contains s.id)) =
        post.find? (fun s => !(used.contains s.id)) := by
  intro pre
  induction pre with
  | nil => intro post _; rfl
  | cons s0 rest ih =>
    intro post hpre
    rw [List.cons_append]
    rw [List.find?_cons_of_neg _ (by simp; exact hpre s0 (List.mem_cons_self _ _))]
    exact ih post (fun s hs => hpre s (List.mem_cons_of_mem _ hs))

theorem find?_unused_head (post : List Subject) (q : Subject) (used : List Nat)
    (h : q.id ∉ used) :
    (q :: post).find? (fun s => !(used.contains s.id)) = some q := by
  apply List.find?_cons_of_pos
  simpa using h

theorem freshOrPlaceholder_isSome (ctx : GenCtx) (f : Option Nat)
    (t0 : Teacher) (ts : List Teacher) (ht : ctx.teachers = t0 :: ts) :
    ∃ v, freshOrPlaceholder ctx f = some v := by
  unfold freshOrPlaceholder
  split
  · next htr =>
    cases f with
    | none => simp [truthyN] at htr
    | some n => exact ⟨n, rfl⟩
  · refine ⟨t0.id, ?_⟩
    unfold headTeacherIdOpt
    rw [ht]

/-- Executing the shared regular-period loop: as long as teachers exist and
the unused suffix of the subject list is duplicate-free, each period in
turn emits exactly one row carrying the next unused subject (in either the
sticky or the fresh branch), stopping when the subjects run out. -/
theorem regularPeriodsLoop_rows (ctx : GenCtx) (c : SchoolClass) (day : Nat)
    (reg : List Subject) (sticky p1A : Bool) (t0 : Teacher) (ts : List Teacher)
    (ht : ctx.teachers = t0 :: ts) :
    ∀ (ps : List Nat) (st : GenState) (used : List Nat) (pre post : List Subject),
      reg = pre ++ post →
      (∀ s ∈ pre, s.id ∈ used) →
      (∀ s ∈ post, s.id ∉ used) →
      ((post.map (fun s => s.id))).Nodup →
      (1 ∈ ps → p1A = false) →
      ∃ rows,
        (regularPeriodsLoop ctx c day reg sticky p1A ps st used).scheds =
          st.scheds ++ rows ∧
        rows.map (fun r => (r.period, r.subjectId)) =
          ps.zip (post.map (fun s => s.id)) := by
  intro ps
  induction ps with
  | nil =>
    intro st used pre post hsplit hpre hpost hnd hp1
    exact ⟨[], by simp [regularPeriodsLoop], by simp⟩
  | cons p rest ih =>
    intro st used pre post hsplit hpre hpost hnd hp1
    have hguard : (p == 1 && p1A) = false := by
      by_cases hp : p = 1
      · rw [hp1 (by rw [hp]; exact List.mem_cons_self _ _)]
        simp
      · simp [beq_false_of_ne hp]
    cases post with
    | nil =>
      have hfind : reg.find? (fun s => !(used.contains s.id)) = none := by
        rw [hsplit, find?_unused_skip_prefix used pre [] hpre]
        rfl
      refine ⟨[], ?_, by simp⟩
      simp only [regularPeriodsLoop, hguard, Bool.false_eq_true, if_false, hfind]
      simp
    | cons q postTail =>
      have hfind : reg.find? (fun s => !(used.contains s.id)) = some q := by
        rw [hsplit, find?_unused_skip_prefix used pre _ hpre]
        exact find?_unused_head postTail q used (hpost q (List.mem_cons_self _ _))
      have hndTail : ((postTail.map (fun s => s.id))).Nodup := by
        rw [List.map_cons, List.nodup_cons] at hnd
        exact hnd.2
      have hqTail : q.id ∉ postTail.map (fun s => s.id) := by
        rw [List.map_cons, List.nodup_cons] at hnd
        exact hnd.1
      have hih : ∀ st2 : GenState,
          ∃ rows,
            (regularPeriodsLoop ctx c day reg sticky p1A rest st2
              (used ++ [q.id])).scheds = st2.scheds ++ rows ∧
            rows.map (fun r => (r.period, r.subjectId)) =
              rest.zip (postTail.map (fun s => s.id)) := by
        intro st2
        refine ih st2 (used ++ [q.id]) (pre ++ [q]) postTail ?_ ?_ ?_ hndTail ?_
        · rw [hsplit, List.append_assoc]
          rfl
        · intro s hs
          rcases List.mem_append.mp hs with h | h
          · exact List.mem_append.mpr (Or.inl (hpre s h))
          · rw [List.mem_singleton] at h
            subst h
            exact List.mem_append.mpr (Or.inr (List.mem_singleton.mpr rfl))
        · intro s hs
          rw [List.mem_append]
          push_neg
          refine ⟨hpost s (List.mem_cons_of_mem _ hs), ?_⟩
          rw [List.mem_singleton]
          intro heq
          exact hqTail (by rw [← heq]; exact List.mem_map_of_mem _ hs)
        · intro h1
          exact hp1 (List.mem_cons_of_mem _ h1)
      simp only [regularPeriodsLoop, hguard, Bool.false_eq_true, if_false, hfind]
      cases hb : (if sticky = true then bindLookup st.bindMap c.id q.id else none) with
      | some tid =>
        obtain ⟨rows2, hr2, hm2⟩ := hih (addSched st tid c.id q.id day p)
        refine ⟨(⟨tid, c.id, q.id, day, p⟩ : Schedule) :: rows2, ?_, ?_⟩
        · rw [hr2]
          unfold addSched
          simp
        · rw [List.map_cons, hm2]
          rfl
      | none =>
        obtain ⟨v, hv⟩ := freshOrPlaceholder_isSome ctx
          (get_available_teacher_for_subject ctx st.scheds q.id day p c.id) t0 ts ht
        rw [hv]
        cases sticky with
        | true =>
          simp only [reduceIte]
          obtain ⟨rows2, hr2, hm2⟩ := hih (addSched
            { st with bindMap := (c.id, q.id, v) :: st.bindMap } v c.id q.id day p)
          refine ⟨(⟨v, c.id, q.id, day, p⟩ : Schedule) :: rows2, ?_, ?_⟩
          · rw [hr2]
            unfold addSched
            simp
          · rw [List.map_cons, hm2]
            rfl
        | false =>
          simp only [Bool.false_eq_true, reduceIte]
          obtain ⟨rows2, hr2, hm2⟩ := hih (addSched st v c.id q.id day p)
          refine ⟨(⟨v, c.id, q.id, day, p⟩ : Schedule) :: rows2, ?_, ?_⟩
          · rw [hr2]
            unfold addSched
            simp
          · rw [List.map_cons, hm2]
            rfl

theorem classTeacherPeriod1_spec (ctx : GenCtx) (c : SchoolClass) (day : Nat)
    (reg : List Subject) (st : GenState) :
    classTeacherPeriod1 ctx c day reg st [] = ⟨st, [], false⟩ ∨
    ∃ (ct : Teacher) (s0 : Subject) (rest : List Subject), reg = s0 :: rest ∧
      classTeacherPeriod1 ctx c day reg st [] =
        ⟨{ addSched st ct.id c.id s0.id day 1 with
            bindMap := (c.id, s0.id, ct.id) :: (addSched st ct.id c.id s0.id day 1).bindMap },
          [s0.id], true⟩ := by
  unfold classTeacherPeriod1
  split
  · split
    · exact Or.inl rfl
    · split
      · rename_i ct s0 rest heq
        right
        refine ⟨ct, s0, rest, rfl, ?_⟩
        have hfind : (s0 :: rest).find? (fun s => !(([] : List Nat).contains s.id)) = some s0 :=
          List.find?_cons_of_pos _ (by simp)
        dsimp only
        rw [hfind]
        rfl
      · exact Or.inl rfl
  · exact Or.inl rfl

/-- The rows the 6/7 block appends for one class and day, when teachers
exist, Library and Games subjects both exist, the computed regular list is
duplicate-free by id, and no row for this (class, day) is flushed yet:
the regular subjects in order at periods 1, 2, ... (whether or not the
class teacher takes period 1), then Library at 7 and Games at 8. -/
theorem processClass67_rows (ctx : GenCtx) (c : SchoolClass) (day : Nat)
    (t0 : Teacher) (ts : List Teacher) (ht : ctx.teachers = t0 :: ts)
    (lib gm : Subject) (hlib : librarySubjectOf ctx.subjects = some lib)
    (hgm : gamesSubjectOf ctx.subjects = some gm)
    (hnd : (((regularSubjects67 ctx.subjects).map (fun s => s.id))).Nodup)
    (st : GenState) (hused : subjectsScheduledToday st.scheds c.id day = []) :
    ∃ rows,
      (processClass67 ctx st c day).scheds = st.scheds ++ rows ∧
      rows.map (fun r => (r.period, r.subjectId)) =
        [1, 2, 3, 4, 5, 6].zip ((regularSubjects67 ctx.subjects).map (fun s => s.id)) ++
          [(7, lib.id), (8, gm.id)] := by
  have hlibgm : ∀ st1 : GenState, ∃ rows78,
      (match librarySubjectOf ctx.subjects with
        | some lib2 =>
          match ctx.teachers with
          | [] => st1
          | t2 :: _ => period8Games67 ctx c day (addSched st1 t2.id c.id lib2.id day 7)
        | none =>
          period8Games67 ctx c day
            { st1 with
              unscheduled := st1.unscheduled ++
                [c.name ++ " Day " ++ toString (day + 1) ++
                  " Period 7: Library subject not found"],
              summary := st1.summary ++
                [c.name ++ ": Library subject not found in database"] }).scheds =
        st1.scheds ++ rows78 ∧
      rows78.map (fun r => (r.period, r.subjectId)) = [(7, lib.id), (8, gm.id)] := by
    intro st1
    rw [hlib, ht]
    unfold period8Games67
    rw [hgm, ht]
    refine ⟨[⟨t0.id, c.id, lib.id, day, 7⟩, ⟨t0.id, c.id, gm.id, day, 8⟩], ?_, rfl⟩
    unfold addSched
    simp
  unfold processClass67
  rw [hused]
  dsimp only
  rcases classTeacherPeriod1_spec ctx c day (regularSubjects67 ctx.subjects) st with hA |
    ⟨ct, s0, rest, hreg, hB⟩
  · rw [hA]
    obtain ⟨rows2, hr2, hm2⟩ := regularPeriodsLoop_rows ctx c day
      (regularSubjects67 ctx.subjects) false false t0 ts ht [1, 2, 3, 4, 5, 6] st []
      [] (regularSubjects67 ctx.subjects) (by simp) (by simp) (by simp) hnd
      (fun _ => rfl)
    obtain ⟨rows78, hr78, hm78⟩ := hlibgm _
    refine ⟨rows2 ++ rows78, ?_, ?_⟩
    · rw [hr78, hr2, List.append_assoc]
    · rw [List.map_append, hm2, hm78]
  · rw [hB]
    have hstep : regularPeriodsLoop ctx c day (regularSubjects67 ctx.subjects) false true
        [1, 2, 3, 4, 5, 6]
        { addSched st ct.id c.id s0.id day 1 with
          bindMap := (c.id, s0.id, ct.id) :: (addSched st ct.id c.id s0.id day 1).bindMap }
        [s0.id] =
      regularPeriodsLoop ctx c day (regularSubjects67 ctx.subjects) false true
        [2, 3, 4, 5, 6]
        { addSched st ct.id c.id s0.id day 1 with
          bindMap := (c.id, s0.id, ct.id) :: (addSched st ct.id c.id s0.id day 1).bindMap }
        [s0.id] := by
      rw [regularPeriodsLoop]
      simp
    rw [hstep]
    have hndrest : ((rest.map (fun s => s.id))).Nodup := by
      rw [hreg, List.map_cons, List.nodup_cons] at hnd
      exact hnd.2
    have hs0rest : s0.id ∉ rest.map (fun s => s.id) := by
      rw [hreg, List.map_cons, List.nodup_cons] at hnd
      exact hnd.1
    have hpost2 : ∀ s ∈ rest, s.id ∉ [s0.id] := by
      intro s hs
      rw [List.mem_singleton]
      intro heq
      exact hs0rest (by rw [← heq]; exact List.mem_map_of_mem _ hs)
    obtain ⟨rows2, hr2, hm2⟩ := regularPeriodsLoop_rows ctx c day
      (regularSubjects67 ctx.subjects) false true t0 ts ht [2, 3, 4, 5, 6]
      { addSched st ct.id c.id s0.id day 1 with
        bindMap := (c.id, s0.id, ct.id) :: (addSched st ct.id c.id s0.id day 1).bindMap }
      [s0.id] [s0] rest hreg (by simp) hpost2 hndrest (by intro h; simp at h)
    obtain ⟨rows78, hr78, hm78⟩ := hlibgm _
    refine ⟨⟨ct.id, c.id, s0.id, day, 1⟩ :: (rows2 ++ rows78), ?_, ?_⟩
    · rw [hr78, hr2]
      show (addSched st ct.id c.id s0.id day 1).scheds ++ rows2 ++ rows78 = _
      unfold addSched
      simp
    · rw [List.map_cons, List.map_append, hm2, hm78, hreg]
      rfl

theorem zip_snds {α β : Type} : ∀ (l1 : List α) (l2 : List β),
    (l1.zip l2).map Prod.snd = l2.take l1.length := by
  intro l1
  induction l1 with
  | nil => intro l2; simp
  | cons a l1t ih =>
    intro l2
    cases l2 with
    | nil => simp
    | cons b l2t =>
      simp only [List.zip_cons_cons, List.map_cons, List.length_cons, List.take_succ_cons]
      rw [ih]

def cex6t1 : Teacher := ⟨1, "T1", false, false, [1]⟩

def cex6subjects : List Subject :=
  [⟨1, "English"⟩, ⟨2, "Hindi"⟩, ⟨3, "History"⟩, ⟨4, "Geography"⟩, ⟨5, "Art"⟩,
    ⟨6, "Telugu"⟩, ⟨7, "Library"⟩, ⟨8, "Games"⟩]

def cex6lib : Subject := ⟨7, "Library"⟩

def cex6gm : Subject := ⟨8, "Games"⟩

def cex6class : SchoolClass := ⟨60, "6A", some 6, none⟩

/-- C6-counterexample.  A store where the claim's precondition holds —
Library and Games exist and six duplicate-free eligible regular subjects
exist (none of them is a library, games or physical-science subject) —
yet the grade-6 class's Monday carries only 7 assignments, not 8: with no
science-family subject in the store, the code caps the regular list at
its first 5 entries (`regular_subjects[:5]`, app.py lines 819-823 — only
a science subject can ever become the 6th entry), so the period loop runs
out of subjects and breaks before period 6. -/
theorem sixSeven_day_length_counterexample :
    librarySubjectOf cex6subjects = some cex6lib ∧
    gamesSubjectOf cex6subjects = some cex6gm ∧
    physicalScienceSubjectOf cex6subjects = none ∧
    (cex6subjects.filter (fun s => s.id != cex6lib.id && s.id != cex6gm.id)).length = 6 ∧
    ((cex6subjects.filter (fun s => s.id != cex6lib.id && s.id != cex6gm.id)).map
      (fun s => s.id)).Nodup ∧
    ((generateFull [cex6t1] [cex6class] cex6subjects).scheds.filter
      (fun r => r.classId == cex6class.id && r.day == 0)).length = 7 ∧
    (7 : Nat) ≠ 8 := by decide

/-- C6 (amended).  For every grade-6/7 class (unique by id among the
classes), when non-leisure teachers exist, Library and Games subjects
exist, and the *code-computed* 6/7 regular-subject list has six
duplicate-free subjects, each generated weekday carries exactly 8
assignments for that class: period 7 is Library, period 8 is Games, and
no subject other than those appears more than once within the class's day
(in fact every subject appears at most once).  Merely having six eligible
regular subjects in the store is not enough — see the counterexample. -/
theorem sixSeven_day_structure
    (allT : List Teacher) (cls : List SchoolClass) (subs : List Subject)
    (t0 : Teacher) (ts : List Teacher)
    (ht : allT.filter (fun t => !t.isLeisure) = t0 :: ts)
    (hndup : (cls.map (fun c => c.id)).Nodup)
    (c : SchoolClass) (hc : c ∈ cls) (hg : c.grade = some 6 ∨ c.grade = some 7)
    (lib gm : Subject) (hlib : librarySubjectOf subs = some lib)
    (hgm : gamesSubjectOf subs = some gm)
    (hnd : ((regularSubjects67 subs).map (fun s => s.id)).Nodup)
    (hlen : (regularSubjects67 subs).length = 6)
    (d : Nat) (hd : d < 5) (F : List Schedule)
    (hF : F = (generateFull allT cls subs).scheds.filter
      (fun r => r.classId == c.id && r.day == d)) :
    F.length = 8 ∧
    (∃ r ∈ F, r.period = 7 ∧ r.subjectId = lib.id) ∧
    (∀ r ∈ F, r.period = 7 → r.subjectId = lib.id) ∧
    (∃ r ∈ F, r.period = 8 ∧ r.subjectId = gm.id) ∧
    (∀ r ∈ F, r.period = 8 → r.subjectId = gm.id) ∧
    (∀ sid : Nat, sid ≠ lib.id → sid ≠ gm.id →
      (F.map (fun r => r.subjectId)).count sid ≤ 1) := by
  obtain ⟨stPre, _, hpre, hrun⟩ := run_filter_eq_block (mkGenCtx allT cls subs) hndup c hc
    d hd (initGenState (mkGenCtx allT cls subs).teachers subs) rfl (fun _ => True)
    trivial (fun _ _ _ _ _ => trivial)
  have hblock : processClassDay (mkGenCtx allT cls subs) stPre c d =
      processClass67 (mkGenCtx allT cls subs) stPre c d := by
    unfold processClassDay
    rw [if_pos hg]
  have hused : subjectsScheduledToday stPre.scheds c.id d = [] := by
    unfold subjectsScheduledToday
    rw [hpre]
    rfl
  obtain ⟨rows, hrows, hproj⟩ := processClass67_rows (mkGenCtx allT cls subs) c d t0 ts ht
    lib gm hlib hgm hnd stPre hused
  obtain ⟨⟨rows2, hr2, htags0⟩, _⟩ := processClass67_delta (mkGenCtx allT cls subs) c d stPre
  have hroweq : rows2 = rows := by
    have : stPre.scheds ++ rows2 = stPre.scheds ++ rows := by rw [← hr2, ← hrows]
    exact List.append_cancel_left this
  have htags : ∀ r ∈ rows, r.classId = c.id ∧ r.day = d := by
    rw [← hroweq]
    exact htags0
  have hFrows : F = rows := by
    have hgen : generateFull allT cls subs =
        runDays (mkGenCtx allT cls subs)
          (initGenState (mkGenCtx allT cls subs).teachers subs) := rfl
    rw [hF, hgen, hrun, hblock, hrows, List.filter_append, hpre, List.nil_append]
    rw [List.filter_eq_self.mpr]
    intro r hr
    simp [(htags r hr).1, (htags r hr).2]
  have hidslen : ((regularSubjects67 subs).map (fun s => s.id)).length = 6 := by
    rw [List.length_map, hlen]
  have hctxsubs : (mkGenCtx allT cls subs).subjects = subs := rfl
  rw [hctxsubs] at hproj
  refine ⟨?_, ?_, ?_, ?_, ?_, ?_⟩
  · have : rows.length = (rows.map (fun r => (r.period, r.subjectId))).length := by
      rw [List.length_map]
    rw [hFrows, this, hproj, List.length_append, List.length_zip, hidslen]
    rfl
  · have hmem : ((7 : Nat), lib.id) ∈ rows.map (fun r => (r.period, r.subjectId)) := by
      rw [hproj]
      exact List.mem_append.mpr (Or.inr (List.mem_cons_self _ _))
    obtain ⟨r, hrm, hre⟩ := List.mem_map.mp hmem
    refine ⟨r, by rw [hFrows]; exact hrm, ?_, ?_⟩
    · exact congrArg Prod.fst hre
    · exact congrArg Prod.snd hre
  · intro r hrm hper
    rw [hFrows] at hrm
    have hmem : (r.period, r.subjectId) ∈ rows.map (fun r => (r.period, r.subjectId)) :=
      List.mem_map_of_mem _ hrm
    rw [hproj] at hmem
    rcases List.mem_append.mp hmem with h | h
    · have := (List.of_mem_zip h).1
      rw [hper] at this
      simp at this
    · rw [hper] at h
      rcases List.mem_cons.mp h with h | h
      · exact (Prod.mk.injEq _ _ _ _).mp h |>.2
      · rcases List.mem_cons.mp h with h | h
        · exact absurd ((Prod.mk.injEq _ _ _ _).mp h).1 (by decide)
        · simp at h
  · have hmem : ((8 : Nat), gm.id) ∈ rows.map (fun r => (r.period, r.subjectId)) := by
      rw [hproj]
      refine List.mem_append.mpr (Or.inr ?_)
      exact List.mem_cons_of_mem _ (List.mem_cons_self _ _)
    obtain ⟨r, hrm, hre⟩ := List.mem_map.mp hmem
    refine ⟨r, by rw [hFrows]; exact hrm, ?_, ?_⟩
    · exact congrArg Prod.fst hre
    · exact congrArg Prod.snd hre
  · intro r hrm hper
    rw [hFrows] at hrm
    have hmem : (r.period, r.subjectId) ∈ rows.map (fun r => (r.period, r.subjectId)) :=
      List.mem_map_of_mem _ hrm
    rw [hproj] at hmem
    rcases List.mem_append.mp hmem with h | h
    · have := (List.of_mem_zip h).1
      rw [hper] at this
      simp at this
    · rw [hper] at h
      rcases List.mem_cons.mp h with h | h
      · exact absurd ((Prod.mk.injEq _ _ _ _).mp h).1 (by decide)
      · rcases List.mem_cons.mp h with h | h
        · exact (Prod.mk.injEq _ _ _ _).mp h |>.2
        · simp at h
  · intro sid hslib hsgm
    have hsnd : rows.map (fun r => r.subjectId) =
        ([1, 2, 3, 4, 5, 6].zip ((regularSubjects67 subs).map (fun s : Subject => s.id)) ++
          [(7, lib.id), (8, gm.id)]).map Prod.snd := by
      have h := congrArg (List.map Prod.snd) hproj
      rw [List.map_map] at h
      exact h
    rw [hFrows, hsnd, List.map_append, zip_snds]
    have htake : ((regularSubjects67 subs).map (fun s => s.id)).take
        ([1, 2, 3, 4, 5, 6] : List Nat).length =
        (regularSubjects67 subs).map (fun s => s.id) := by
      rw [show ([1, 2, 3, 4, 5, 6] : List Nat).length = 6 from rfl, ← hidslen]
      exact List.take_length _
    rw [htake, List.count_append]
    have hz : (([(7, lib.id), (8, gm.id)]).map Prod.snd).count sid = 0 := by
      simp [hslib, hsgm]
    rw [hz, Nat.add_zero]
    exact List.nodup_iff_count_le_one.mp hnd sid

def w6t1 : Teacher := ⟨1, "T1", false, false, [1]⟩

def w6subjects : List Subject :=
  [⟨1, "English"⟩, ⟨2, "Hindi"⟩, ⟨3, "History"⟩, ⟨4, "Geography"⟩, ⟨5, "Art"⟩,
    ⟨6, "Science"⟩, ⟨7, "Library"⟩, ⟨8, "Games"⟩]

def w6lib : Subject := ⟨7, "Library"⟩

def w6gm : Subject := ⟨8, "Games"⟩

def w6class : SchoolClass := ⟨50, "6A", some 6, none⟩

/-- Witness for the C6 theorem at a concrete store. -/
theorem sixSeven_day_structure_witness :
    ((generateFull [w6t1] [w6class] w6subjects).scheds.filter
        (fun r => r.classId == w6class.id && r.day == 0)).length = 8 ∧
    (∃ r ∈ (generateFull [w6t1] [w6class] w6subjects).scheds.filter
        (fun r => r.classId == w6class.id && r.day == 0),
      r.period = 7 ∧ r.subjectId = w6lib.id) ∧
    (∀ r ∈ (generateFull [w6t1] [w6class] w6subjects).scheds.filter
        (fun r => r.classId == w6class.id && r.day == 0),
      r.period = 7 → r.subjectId = w6lib.id) ∧
    (∃ r ∈ (generateFull [w6t1] [w6class] w6subjects).scheds.filter
        (fun r => r.classId == w6class.id && r.day == 0),
      r.period = 8 ∧ r.subjectId = w6gm.id) ∧
    (∀ r ∈ (generateFull [w6t1] [w6class] w6subjects).scheds.filter
        (fun r => r.classId == w6class.id && r.day == 0),
      r.period = 8 → r.subjectId = w6gm.id) ∧
    (∀ sid : Nat, sid ≠ w6lib.id → sid ≠ w6gm.id →
      (((generateFull [w6t1] [w6class] w6subjects).scheds.filter
        (fun r => r.classId == w6class.id && r.day == 0)).map
          (fun r => r.subjectId)).count sid ≤ 1) :=
  sixSeven_day_structure [w6t1] [w6class] w6subjects w6t1 [] (by decide) (by decide)
    w6class (by decide) (Or.inl (by decide)) w6lib w6gm (by decide) (by decide)
    (by decide) (by decide) 0 (by decide) _ rfl

theorem processClassDay_skip (ctx : GenCtx) (c : SchoolClass) (g : Int)
    (hg : c.grade = some g) (hnotin : g ∉ ([6, 7, 8, 9, 10] : List Int)) :
    ∀ (st : GenState) (d : Nat), processClassDay ctx st c d = st := by
  intro st d
  simp only [List.mem_cons] at hnotin
  push_neg at hnotin
  obtain ⟨h6, h7, h8, h9, h10, _⟩ := hnotin
  unfold processClassDay
  rw [if_neg, if_neg, if_neg]
  · rw [hg]
    intro hcon
    exact h10 (by injection hcon)
  · rw [hg]
    rintro (hcon | hcon)
    · exact h8 (by injection hcon)
    · exact h9 (by injection hcon)
  · rw [hg]
    rintro (hcon | hcon)
    · exact h6 (by injection hcon)
    · exact h7 (by injection hcon)

theorem runDays_filter_skip (ctx : GenCtx) (p : Schedule → Bool) (c : SchoolClass)
    (hskip : ∀ (st2 : GenState) (d2 : Nat), processClassDay ctx st2 c d2 = st2)
    (hothers : ∀ c2 ∈ ctx.classes, c2 = c ∨
      ∀ r : Schedule, r.classId = c2.id → p r = false) :
    ∀ (ds : List Nat) (st0 : GenState),
      ((ds.foldl (dayFold ctx) st0).scheds.filter p = st0.scheds.filter p) := by
  have hday : ∀ (d2 : Nat) (st : GenState),
      (dayFold ctx st d2).scheds.filter p = st.scheds.filter p := by
    intro d2
    unfold dayFold
    have : ∀ (l : List SchoolClass), (∀ c2 ∈ l, c2 ∈ ctx.classes) → ∀ st : GenState,
        ((l.foldl (fun st c2 => processClassDay ctx st c2 d2) st).scheds.filter p =
          st.scheds.filter p) := by
      intro l
      induction l with
      | nil => intro _ st; rfl
      | cons c2 rest ih =>
        intro hmem st
        rw [List.foldl_cons]
        rw [ih (fun c3 h3 => hmem c3 (List.mem_cons_of_mem _ h3))]
        rcases hothers c2 (hmem c2 (List.mem_cons_self _ _)) with h | h
        · rw [h, hskip]
        · exact blockDelta_filter_stable (processClassDay_delta ctx c2 d2 st) p
            (fun r hcl _ => h r hcl)
    exact fun st => this ctx.classes (fun c2 h2 => h2) st
  intro ds
  induction ds with
  | nil => intro st0; rfl
  | cons d2 rest ih =>
    intro st0
    rw [List.foldl_cons, ih, hday]

/-- C5 (amended).  With teachers/classes/subjects present, generation
refuses up front only when some class has *no* grade at all; a class whose
grade is set but outside the supported bands {6,...,10} does not trigger a
refusal — the run reports success and silently produces no assignment for
that class. -/
theorem grade_gate_amended (store : Store)
    (hndup : (store.classes.map (fun c => c.id)).Nodup)
    (hteachers : store.teachers.filter (fun t => !t.isLeisure) ≠ [])
    (hclasses : store.classes ≠ []) (hsubjects : store.subjects ≠ []) :
    ((∃ c ∈ store.classes, c.grade = none) →
      (generate_schedule store).1 = .error ("Please set grade for classes: " ++
        commaJoin ((store.classes.filter (fun c => c.grade.isNone)).map
          (fun c => c.name)))) ∧
    ((∀ c ∈ store.classes, c.grade ≠ none) →
      (∃ u s, (generate_schedule store).1 = .ok u s) ∧
      ∀ c ∈ store.classes, ∀ g : Int, c.grade = some g →
        g ∉ ([6, 7, 8, 9, 10] : List Int) →
        (generate_schedule store).2.schedules.filter (fun r => r.classId == c.id) = []) := by
  have hb : ((store.teachers.filter (fun t => !t.isLeisure)).isEmpty ||
      store.classes.isEmpty || store.subjects.isEmpty) = false := by
    cases ht2 : store.teachers.filter (fun t => !t.isLeisure) with
    | nil => exact absurd ht2 hteachers
    | cons a b =>
      cases hc2 : store.classes with
      | nil => exact absurd hc2 hclasses
      | cons a2 b2 =>
        cases hs2 : store.subjects with
        | nil => exact absurd hs2 hsubjects
        | cons a3 b3 => simp
  constructor
  · intro ⟨c, hcmem, hcg⟩
    have hmem : c ∈ store.classes.filter (fun x => x.grade.isNone) := by
      simp [List.mem_filter, hcmem, hcg]
    have hne : ((store.classes.filter (fun c => c.grade.isNone)).map
        (fun c => c.name)).isEmpty = false := by
      cases hfz : store.classes.filter (fun x => x.grade.isNone) with
      | nil => rw [hfz] at hmem; exact absurd hmem (List.not_mem_nil c)
      | cons a l => simp [hfz]
    simp only [generate_schedule, generateCore, hb, hne]
    rfl
  · intro hall
    have hgr : ((store.classes.filter (fun c => c.grade.isNone)).map
        (fun c => c.name)).isEmpty = true := by
      have : store.classes.filter (fun c => c.grade.isNone) = [] := by
        rw [List.filter_eq_nil_iff]
        intro c hcm
        have := hall c hcm
        simp only [Option.isNone]
        cases hg2 : c.grade with
        | none => exact absurd hg2 this
        | some g => simp
      rw [this]
      rfl
    constructor
    · refine ⟨(generateFull store.teachers store.classes store.subjects).unscheduled,
        (generateFull store.teachers store.classes store.subjects).summary, ?_⟩
      simp only [generate_schedule, generateCore, hb, hgr]
      rfl
    · intro c hcmem g hg hnotin
      have hsched : (generate_schedule store).2.schedules =
          (generateFull store.teachers store.classes store.subjects).scheds := by
        simp only [generate_schedule, generateCore, hb, hgr]
        rfl
      rw [hsched]
      have hskip := processClassDay_skip (mkGenCtx store.teachers store.classes store.subjects)
        c g hg hnotin
      have hothers : ∀ c2 ∈ (mkGenCtx store.teachers store.classes store.subjects).classes,
          c2 = c ∨ ∀ r : Schedule, r.classId = c2.id →
            (fun r : Schedule => r.classId == c.id) r = false := by
        intro c2 h2
        by_cases heq : c2 = c
        · exact Or.inl heq
        · right
          intro r hcl
          have hne2 : c2.id ≠ c.id := by
            intro hid
            obtain ⟨L1, L2, hsp⟩ := List.append_of_mem hcmem
            have hids := hndup
            rw [hsp] at hids
            obtain ⟨hL1, hL2⟩ := nodup_map_split_ne (fun x : SchoolClass => x.id) hids
            rw [hsp] at h2
            rcases List.mem_append.mp h2 with hm | hm
            · exact hL1 c2 hm hid
            · rcases List.mem_cons.mp hm with hm | hm
              · exact heq hm
              · exact hL2 c2 hm hid
          simp [hcl, hne2]
      have := runDays_filter_skip (mkGenCtx store.teachers store.classes store.subjects)
        (fun r => r.classId == c.id) c hskip hothers (List.range 5)
        (initGenState (mkGenCtx store.teachers store.classes store.subjects).teachers
          store.subjects)
      unfold generateFull
      exact this

/-- Witness for the amended C5 theorem at the grade-11 store. -/
theorem grade_gate_amended_witness :
    ((∃ c ∈ cex5store.classes, c.grade = none) →
      (generate_schedule cex5store).1 = .error ("Please set grade for classes: " ++
        commaJoin ((cex5store.classes.filter (fun c => c.grade.isNone)).map
          (fun c => c.name)))) ∧
    ((∀ c ∈ cex5store.classes, c.grade ≠ none) →
      (∃ u s, (generate_schedule cex5store).1 = .ok u s) ∧
      ∀ c ∈ cex5store.classes, ∀ g : Int, c.grade = some g →
        g ∉ ([6, 7, 8, 9, 10] : List Int) →
        (generate_schedule cex5store).2.schedules.filter
          (fun r => r.classId == c.id) = []) :=
  grade_gate_amended cex5store (by decide) (by decide) (by decide) (by decide)

theorem okValue_nonzero (ctx : GenCtx) (v : Nat)
    (hz : ∀ t ∈ ctx.teachers ++ ctx.allTeachers, t.id ≠ 0) (h : okValue ctx v) :
    v ≠ 0 := by
  rcases h with h | h
  · exact h
  · obtain ⟨t, htm, hte⟩ := List.mem_map.mp h
    rw [← hte]
    exact hz t htm

theorem freshOrPlaceholder_nonzero (ctx : GenCtx) (f : Option Nat)
    (t0 : Teacher) (ts : List Teacher) (ht : ctx.teachers = t0 :: ts)
    (hz : ∀ t ∈ ctx.teachers ++ ctx.allTeachers, t.id ≠ 0) :
    ∃ v, freshOrPlaceholder ctx f = some v ∧ v ≠ 0 := by
  obtain ⟨v, hv⟩ := freshOrPlaceholder_isSome ctx f t0 ts ht
  exact ⟨v, hv, okValue_nonzero ctx v hz (freshOrPlaceholder_ok ctx f v hv)⟩

theorem bindLookup_some_ok (ctx : GenCtx) (m : List (Nat × Nat × Nat))
    (hbind : ∀ e ∈ m, okValue ctx e.2.2) (cid sid v : Nat)
    (h : bindLookup m cid sid = some v) : okValue ctx v := by
  unfold bindLookup at h
  cases hf : m.find? (fun e => e.1 == cid && e.2.1 == sid) with
  | none => rw [hf] at h; cases h
  | some e =>
    rw [hf] at h
    have hv : e.2.2 = v := by
      injection h
    rw [← hv]
    exact hbind e (List.mem_of_find?_eq_some hf)

theorem grade10Period1Teacher_some (ctx : GenCtx) (st : GenState) (c : SchoolClass)
    (day : Nat) (maths : Subject) (t0 : Teacher) (ts : List Teacher)
    (ht : ctx.teachers = t0 :: ts)
    (hz : ∀ t ∈ ctx.teachers ++ ctx.allTeachers, t.id ≠ 0) :
    ∃ tid, tid ≠ 0 ∧ grade10Period1Teacher ctx st c day maths = some tid := by
  unfold grade10Period1Teacher
  split
  · rename_i hcond
    split
    · rename_i hnone
      rw [hnone] at hcond
      simp [truthyN] at hcond
    · rename_i ctid hceq
      cases hfind : findTeacherById ctx.allTeachers ctid with
      | some ct =>
        have hct0 : ct.id ≠ 0 :=
          hz ct (List.mem_append.mpr (Or.inr (List.mem_of_find?_eq_some hfind)))
        exact ⟨ct.id, hct0, rfl⟩
      | none =>
        obtain ⟨v, hv, hv0⟩ := freshOrPlaceholder_nonzero ctx
          (get_available_teacher_for_subject ctx st.scheds maths.id day 1 c.id) t0 ts ht hz
        exact ⟨v, hv0, hv⟩
  · obtain ⟨v, hv, hv0⟩ := freshOrPlaceholder_nonzero ctx
      (get_available_teacher_for_subject ctx st.scheds maths.id day 1 c.id) t0 ts ht hz
    exact ⟨v, hv0, hv⟩

theorem grade10Period1_eq (ctx : GenCtx) (st : GenState) (c : SchoolClass)
    (day : Nat) (maths : Subject) (t0 : Teacher) (ts : List Teacher)
    (ht : ctx.teachers = t0 :: ts)
    (hz : ∀ t ∈ ctx.teachers ++ ctx.allTeachers, t.id ≠ 0) :
    ∃ tid, tid ≠ 0 ∧
      grade10Period1 ctx st c day maths = addSched st tid c.id maths.id day 1 := by
  obtain ⟨tid, h0, heq⟩ := grade10Period1Teacher_some ctx st c day maths t0 ts ht hz
  refine ⟨tid, h0, ?_⟩
  unfold grade10Period1
  rw [heq]
  dsimp only
  rw [if_neg (by simp [h0])]

theorem grade10Period8_eq (ctx : GenCtx) (st : GenState) (c : SchoolClass)
    (day : Nat) (maths : Subject) (t0 : Teacher) (ts : List Teacher)
    (ht : ctx.teachers = t0 :: ts)
    (hz : ∀ t ∈ ctx.teachers ++ ctx.allTeachers, t.id ≠ 0)
    (hbind : ∀ e ∈ st.bindMap, okValue ctx e.2.2) :
    ∃ tid, tid ≠ 0 ∧
      (grade10Period8 ctx st c day maths).scheds =
        st.scheds ++ [⟨tid, c.id, maths.id, day, 8⟩] := by
  unfold grade10Period8
  cases hb : bindLookup st.bindMap c.id maths.id with
  | some tid =>
    have htid : tid ≠ 0 :=
      okValue_nonzero ctx tid hz (bindLookup_some_ok ctx st.bindMap hbind c.id maths.id tid hb)
    refine ⟨tid, htid, ?_⟩
    dsimp only
    rw [if_neg (by simp [htid])]
    rfl
  | none =>
    obtain ⟨v, hv, hv0⟩ := freshOrPlaceholder_nonzero ctx
      (get_available_teacher_for_subject ctx st.scheds maths.id day 8 c.id) t0 ts ht hz
    dsimp only
    rw [hv]
    refine ⟨v, hv0, ?_⟩
    dsimp only
    rw [if_neg (by simp [hv0])]
    rfl

/-- The rows the grade-10 block appends for one class and day, when
teachers exist and have non-zero ids, a Maths subject exists, the sticky
map holds only plausible teacher ids, and no row for this (class, day) is
flushed yet: Maths at period 1, the non-Maths subjects in order at
periods 2-7, and Maths again at period 8. -/
theorem processClass10_rows (ctx : GenCtx) (c : SchoolClass) (day : Nat)
    (t0 : Teacher) (ts : List Teacher) (ht : ctx.teachers = t0 :: ts)
    (maths : Subject) (hm : mathsSubjectOf ctx.subjects = some maths)
    (hz : ∀ t ∈ ctx.teachers ++ ctx.allTeachers, t.id ≠ 0)
    (hndO : ((otherSubjects10 ctx.subjects maths.id).map (fun s => s.id)).Nodup)
    (st : GenState) (hbind : ∀ e ∈ st.bindMap, okValue ctx e.2.2)
    (hused : st.scheds.filter (fun r => r.classId == c.id && r.day == day) = []) :
    ∃ rows,
      (processClass10 ctx st c day).scheds = st.scheds ++ rows ∧
      rows.map (fun r => (r.period, r.subjectId)) =
        (1, maths.id) ::
          ([2, 3, 4, 5, 6, 7].zip
            ((otherSubjects10 ctx.subjects maths.id).map (fun s => s.id)) ++
            [(8, maths.id)]) := by
  have husedT : usedToday10 st c day maths = [] := by
    unfold usedToday10
    have : st.scheds.filter (fun s =>
        s.classId == c.id && s.day == day && s.subjectId != maths.id) = [] := by
      rw [List.filter_eq_nil_iff]
      intro r hr hcon
      have hmem : r ∈ st.scheds.filter (fun r => r.classId == c.id && r.day == day) := by
        rw [List.mem_filter]
        simp only [Bool.and_eq_true] at hcon
        exact ⟨hr, by simp [hcon.1.1, hcon.1.2]⟩
      rw [hused] at hmem
      exact List.not_mem_nil r hmem
    rw [this]
    rfl
  unfold processClass10
  rw [hm]
  dsimp only
  rw [husedT]
  obtain ⟨tid1, h1z, h1eq⟩ := grade10Period1_eq ctx st c day maths t0 ts ht hz
  rw [h1eq]
  obtain ⟨rows2, hr2, hm2⟩ := regularPeriodsLoop_rows ctx c day
    (otherSubjects10 ctx.subjects maths.id) true false t0 ts ht
    [2, 3, 4, 5, 6, 7] (addSched st tid1 c.id maths.id day 1) []
    [] (otherSubjects10 ctx.subjects maths.id) (by simp) (by simp) (by simp) hndO
    (by intro h; simp at h)
  have hbind2 : ∀ e ∈ (regularPeriodsLoop ctx c day
      (otherSubjects10 ctx.subjects maths.id) true false [2, 3, 4, 5, 6, 7]
      (addSched st tid1 c.id maths.id day 1) []).bindMap, okValue ctx e.2.2 := by
    obtain ⟨_, ⟨entries, hee, hev⟩⟩ := regularPeriodsLoop_delta ctx c day
      (otherSubjects10 ctx.subjects maths.id) true false [2, 3, 4, 5, 6, 7]
      (addSched st tid1 c.id maths.id day 1) []
    rw [hee]
    intro e hem
    rcases List.mem_append.mp hem with h | h
    · exact (hev e h).2
    · exact hbind e h
  obtain ⟨tid8, h8z, h8eq⟩ := grade10Period8_eq ctx
    (regularPeriodsLoop ctx c day (otherSubjects10 ctx.subjects maths.id) true false
      [2, 3, 4, 5, 6, 7] (addSched st tid1 c.id maths.id day 1) [])
    c day maths t0 ts ht hz hbind2
  rw [h8eq, hr2]
  refine ⟨(⟨tid1, c.id, maths.id, day, 1⟩ : Schedule) :: (rows2 ++
    [(⟨tid8, c.id, maths.id, day, 8⟩ : Schedule)]), ?_, ?_⟩
  · unfold addSched
    simp
  · rw [List.map_cons, List.map_append, hm2]
    rfl

theorem map_filter_comp {α β : Type} (f : α → β) (q : β → Bool) :
    ∀ l : List α, (l.filter (fun x => q (f x))).map f = (l.map f).filter q := by
  intro l
  induction l with
  | nil => rfl
  | cons a rest ih =>
    simp only [List.filter_cons, List.map_cons]
    by_cases hq : q (f a) = true
    · simp only [hq, if_true, List.map_cons, ih]
    · rw [Bool.not_eq_true] at hq
      simp only [hq, Bool.false_eq_true, if_false, ih]

theorem otherSubjects10_ne (subs : List Subject) (mid : Nat) :
    ∀ s ∈ otherSubjects10 subs mid, s.id ≠ mid := by
  intro s hs
  unfold otherSubjects10 at hs
  have := List.mem_of_mem_take hs
  rw [List.mem_filter] at this
  simpa using this.2

/-- C4 (amended).  For every grade-10 class (unique by id), when
non-leisure teachers with non-zero ids exist, a Maths subject exists, and
the first 6 non-Maths subjects are duplicate-free, every generated weekday
carries Maths at period 1 and at period 8, and periods 2-7 carry six
distinct subjects none of which is Maths.  The original claim's "both use
the same teacher" is false (see the counterexample): period 1 is selected
afresh each day (the class teacher on Monday) and is never recorded in the
binding map, while period 8 reuses the sticky Maths binding. -/
theorem grade10_day_structure
    (allT : List Teacher) (cls : List SchoolClass) (subs : List Subject)
    (t0 : Teacher) (ts : List Teacher)
    (ht : allT.filter (fun t => !t.isLeisure) = t0 :: ts)
    (hndup : (cls.map (fun c => c.id)).Nodup)
    (c : SchoolClass) (hc : c ∈ cls) (hg : c.grade = some 10)
    (maths : Subject) (hm : mathsSubjectOf subs = some maths)
    (hz : ∀ t ∈ allT, t.id ≠ 0)
    (hndO : ((otherSubjects10 subs maths.id).map (fun s => s.id)).Nodup)
    (hlenO : (otherSubjects10 subs maths.id).length = 6)
    (d : Nat) (hd : d < 5) (F : List Schedule)
    (hF : F = (generateFull allT cls subs).scheds.filter
      (fun r => r.classId == c.id && r.day == d)) :
    (∃ r ∈ F, r.period = 1 ∧ r.subjectId = maths.id) ∧
    (∀ r ∈ F, r.period = 1 → r.subjectId = maths.id) ∧
    (∃ r ∈ F, r.period = 8 ∧ r.subjectId = maths.id) ∧
    (∀ r ∈ F, r.period = 8 → r.subjectId = maths.id) ∧
    (F.filter (fun r => 2 ≤ r.period && r.period ≤ 7)).length = 6 ∧
    ((F.filter (fun r => 2 ≤ r.period && r.period ≤ 7)).map
      (fun r => r.subjectId)).Nodup ∧
    (∀ r ∈ F, 2 ≤ r.period → r.period ≤ 7 → r.subjectId ≠ maths.id) := by
  have hzz : ∀ t ∈ (mkGenCtx allT cls subs).teachers ++
      (mkGenCtx allT cls subs).allTeachers, t.id ≠ 0 := by
    intro t htm
    rcases List.mem_append.mp htm with h | h
    · exact hz t (List.mem_of_mem_filter h)
    · exact hz t h
  obtain ⟨stPre, hP, hpre, hrun⟩ := run_filter_eq_block (mkGenCtx allT cls subs) hndup c hc
    d hd (initGenState (mkGenCtx allT cls subs).teachers subs) rfl
    (fun st => ∀ e ∈ st.bindMap, okValue (mkGenCtx allT cls subs) e.2.2)
    (by intro e he; simp [initGenState] at he)
    (by
      intro st c2 d2 _ hPst
      obtain ⟨_, ⟨entries, hee, hev⟩⟩ := processClassDay_delta (mkGenCtx allT cls subs) c2 d2 st
      rw [hee]
      intro e he
      rcases List.mem_append.mp he with h | h
      · exact (hev e h).2
      · exact hPst e h)
  have hblock : processClassDay (mkGenCtx allT cls subs) stPre c d =
      processClass10 (mkGenCtx allT cls subs) stPre c d := by
    unfold processClassDay
    rw [if_neg (by simp [hg]), if_neg (by simp [hg]), if_pos hg]
  obtain ⟨rows, hrows, hproj⟩ := processClass10_rows (mkGenCtx allT cls subs) c d t0 ts ht
    maths hm hzz hndO stPre hP hpre
  obtain ⟨⟨rows2, hr2, htags0⟩, _⟩ := processClass10_delta (mkGenCtx allT cls subs) c d stPre
  have hroweq : rows2 = rows := by
    have : stPre.scheds ++ rows2 = stPre.scheds ++ rows := by rw [← hr2, ← hrows]
    exact List.append_cancel_left this
  have htags : ∀ r ∈ rows, r.classId = c.id ∧ r.day = d := by
    rw [← hroweq]
    exact htags0
  have hFrows : F = rows := by
    have hgen : generateFull allT cls subs =
        runDays (mkGenCtx allT cls subs)
          (initGenState (mkGenCtx allT cls subs).teachers subs) := rfl
    rw [hF, hgen, hrun, hblock, hrows, List.filter_append, hpre, List.nil_append]
    rw [List.filter_eq_self.mpr]
    intro r hr
    simp [(htags r hr).1, (htags r hr).2]
  have hctxsubs : (mkGenCtx allT cls subs).subjects = subs := rfl
  rw [hctxsubs] at hproj
  have hidmem : ∀ sid ∈ (otherSubjects10 subs maths.id).map (fun s => s.id),
      sid ≠ maths.id := by
    intro sid hsm
    obtain ⟨s, hs, he5⟩ := List.mem_map.mp hsm
    rw [← he5]
    exact otherSubjects10_ne subs maths.id s hs
  refine ⟨?_, ?_, ?_, ?_, ?_, ?_, ?_⟩
  · have hmem : ((1 : Nat), maths.id) ∈ rows.map (fun r => (r.period, r.subjectId)) := by
      rw [hproj]
      exact List.mem_cons_self _ _
    obtain ⟨r, hrm, hre⟩ := List.mem_map.mp hmem
    exact ⟨r, by rw [hFrows]; exact hrm, congrArg Prod.fst hre, congrArg Prod.snd hre⟩
  · intro r hrm hper
    rw [hFrows] at hrm
    have hmem : (r.period, r.subjectId) ∈ rows.map (fun r => (r.period, r.subjectId)) :=
      List.mem_map_of_mem _ hrm
    rw [hproj] at hmem
    rcases List.mem_cons.mp hmem with h | h
    · exact ((Prod.mk.injEq _ _ _ _).mp h).2
    · rcases List.mem_append.mp h with h | h
      · have := (List.of_mem_zip h).1
        rw [hper] at this
        simp at this
      · rw [hper] at h
        rcases List.mem_cons.mp h with h | h
        · exact absurd ((Prod.mk.injEq _ _ _ _).mp h).1 (by decide)
        · simp at h
  · have hmem : ((8 : Nat), maths.id) ∈ rows.map (fun r => (r.period, r.subjectId)) := by
      rw [hproj]
      refine List.mem_cons_of_mem _ (List.mem_append.mpr (Or.inr ?_))
      exact List.mem_cons_self _ _
    obtain ⟨r, hrm, hre⟩ := List.mem_map.mp hmem
    exact ⟨r, by rw [hFrows]; exact hrm, congrArg Prod.fst hre, congrArg Prod.snd hre⟩
  · intro r hrm hper
    rw [hFrows] at hrm
    have hmem : (r.period, r.subjectId) ∈ rows.map (fun r => (r.period, r.subjectId)) :=
      List.mem_map_of_mem _ hrm
    rw [hproj] at hmem
    rcases List.mem_cons.mp hmem with h | h
    · exact absurd ((Prod.mk.injEq _ _ _ _).mp h).1 (by rw [hper]; decide)
    · rcases List.mem_append.mp h with h | h
      · have := (List.of_mem_zip h).1
        rw [hper] at this
        simp at this
      · rcases List.mem_cons.mp h with h | h
        · exact ((Prod.mk.injEq _ _ _ _).mp h).2
        · simp at h
  all_goals
    have hmidproj : ((F.filter (fun r => 2 ≤ r.period && r.period ≤ 7)).map
        (fun r => (r.period, r.subjectId))) =
        [2, 3, 4, 5, 6, 7].zip ((otherSubjects10 subs maths.id).map (fun s => s.id)) := by
      rw [hFrows]
      rw [show (fun r : Schedule => ((2 ≤ r.period && r.period ≤ 7 : Bool))) =
        (fun r : Schedule =>
          ((fun pr : Nat × Nat => (2 ≤ pr.1 && pr.1 ≤ 7 : Bool))
            ((fun r : Schedule => (r.period, r.subjectId)) r))) from rfl]
      rw [map_filter_comp (fun r : Schedule => (r.period, r.subjectId))
        (fun pr : Nat × Nat => (2 ≤ pr.1 && pr.1 ≤ 7 : Bool)) rows]
      rw [hproj]
      rw [List.filter_cons_of_neg (by simp)]
      rw [List.filter_append]
      rw [List.filter_eq_self.mpr, List.filter_cons_of_neg (by simp)]
      · rw [List.filter_nil, List.append_nil]
      · intro pr hpr
        have h1 := (List.of_mem_zip hpr).1
        have h2 : 2 ≤ pr.1 ∧ pr.1 ≤ 7 := by
          simp only [List.mem_cons, List.not_mem_nil, or_false] at h1
          rcases h1 with h | h | h | h | h | h <;> omega
        simp [h2.1, h2.2]
  · have hlen2 : ((F.filter (fun r => 2 ≤ r.period && r.period ≤ 7)).map
        (fun r => (r.period, r.subjectId))).length = 6 := by
      rw [hmidproj, List.length_zip, List.length_map, hlenO]
      rfl
    rw [List.length_map] at hlen2
    exact hlen2
  · have hsnd : (F.filter (fun r => 2 ≤ r.period && r.period ≤ 7)).map
        (fun r => r.subjectId) =
        ([2, 3, 4, 5, 6, 7].zip ((otherSubjects10 subs maths.id).map
          (fun s => s.id))).map Prod.snd := by
      have h := congrArg (List.map Prod.snd) hmidproj
      rw [List.map_map] at h
      exact h
    rw [hsnd, zip_snds]
    have htake : ((otherSubjects10 subs maths.id).map (fun s => s.id)).take
        ([2, 3, 4, 5, 6, 7] : List Nat).length =
        (otherSubjects10 subs maths.id).map (fun s => s.id) := by
      rw [show ([2, 3, 4, 5, 6, 7] : List Nat).length = 6 from rfl]
      rw [show (6 : Nat) = ((otherSubjects10 subs maths.id).map (fun s => s.id)).length from
        by rw [List.length_map, hlenO]]
      exact List.take_length _
    rw [htake]
    exact hndO
  · intro r hrm hp2 hp7
    have hrmF : r ∈ F.filter (fun r => 2 ≤ r.period && r.period ≤ 7) := by
      rw [List.mem_filter]
      exact ⟨hrm, by simp [hp2, hp7]⟩
    have hmem : (r.period, r.subjectId) ∈
        (F.filter (fun r => 2 ≤ r.period && r.period ≤ 7)).map
          (fun r => (r.period, r.subjectId)) := List.mem_map_of_mem _ hrmF
    rw [hmidproj] at hmem
    exact hidmem r.subjectId (List.of_mem_zip hmem).2

def w4t : Teacher := ⟨1, "T1", false, false, [9]⟩

def w4subjects : List Subject :=
  [⟨1, "English"⟩, ⟨2, "Hindi"⟩, ⟨3, "History"⟩, ⟨4, "Geography"⟩, ⟨5, "Art"⟩,
    ⟨6, "Civics"⟩, ⟨9, "Maths"⟩]

def w4maths : Subject := ⟨9, "Maths"⟩

def w4class : SchoolClass := ⟨60, "10A", some 10, none⟩

/-- Witness for the amended C4 theorem at a concrete store. -/
theorem grade10_day_structure_witness :
    (∃ r ∈ (generateFull [w4t] [w4class] w4subjects).scheds.filter
        (fun r => r.classId == w4class.id && r.day == 0),
      r.period = 1 ∧ r.subjectId = w4maths.id) ∧
    (∀ r ∈ (generateFull [w4t] [w4class] w4subjects).scheds.filter
        (fun r => r.classId == w4class.id && r.day == 0),
      r.period = 1 → r.subjectId = w4maths.id) ∧
    (∃ r ∈ (generateFull [w4t] [w4class] w4subjects).scheds.filter
        (fun r => r.classId == w4class.id && r.day == 0),
      r.period = 8 ∧ r.subjectId = w4maths.id) ∧
    (∀ r ∈ (generateFull [w4t] [w4class] w4subjects).scheds.filter
        (fun r => r.classId == w4class.id && r.day == 0),
      r.period = 8 → r.subjectId = w4maths.id) ∧
    (((generateFull [w4t] [w4class] w4subjects).scheds.filter
        (fun r => r.classId == w4class.id && r.day == 0)).filter
      (fun r => 2 ≤ r.period && r.period ≤ 7)).length = 6 ∧
    ((((generateFull [w4t] [w4class] w4subjects).scheds.filter
        (fun r => r.classId == w4class.id && r.day == 0)).filter
      (fun r => 2 ≤ r.period && r.period ≤ 7)).map (fun r => r.subjectId)).Nodup ∧
    (∀ r ∈ (generateFull [w4t] [w4class] w4subjects).scheds.filter
        (fun r => r.classId == w4class.id && r.day == 0),
      2 ≤ r.period → r.period ≤ 7 → r.subjectId ≠ w4maths.id) :=
  grade10_day_structure [w4t] [w4class] w4subjects w4t [] (by decide) (by decide)
    w4class (by decide) (by decide) w4maths (by decide) (by decide) (by decide)
    (by decide) 0 (by decide) _ rfl

/-! ## Sticky-binding coherence (for the amended C2) -/

/-- The ids of the distinguished Library/Games subjects (those that exist). -/
def libGamesIds (subjects : List Subject) : List Nat :=
  ((librarySubjectOf subjects).toList ++ (gamesSubjectOf subjects).toList).map
    (fun s => s.id)

/-- The subjects a sticky-scoped row of class `c` may carry: for a grade
8/9 class not a Library/Games id, for a grade-10 class not the Maths id. -/
def subjOk (ctx : GenCtx) (c : SchoolClass) (sid : Nat) : Prop :=
  ((c.grade = some 8 ∨ c.grade = some 9) → sid ∉ libGamesIds ctx.subjects) ∧
  (c.grade = some 10 → ∀ m, mathsSubjectOf ctx.subjects = some m → sid ≠ m.id)

/-- Run invariant: every flushed row of a grade 8/9 class carries either a
Library/Games placeholder (the first non-leisure teacher) or exactly the
teacher recorded in the sticky binding map for its (class, subject); every
non-Maths row of a grade-10 class carries the teacher recorded in the
binding map. -/
def Coherent (ctx : GenCtx) (st : GenState) : Prop :=
  ∀ r ∈ st.scheds, ∀ c ∈ ctx.classes, r.classId = c.id →
    ((c.grade = some 8 ∨ c.grade = some 9) →
      (if r.subjectId ∈ libGamesIds ctx.subjects
        then ∃ t0 ts, ctx.teachers = t0 :: ts ∧ r.teacherId = t0.id
        else bindLookup st.bindMap c.id r.subjectId = some r.teacherId)) ∧
    (c.grade = some 10 →
      (∀ m, mathsSubjectOf ctx.subjects = some m → r.subjectId ≠ m.id) →
      bindLookup st.bindMap c.id r.subjectId = some r.teacherId)

/-- No flushed row belongs to class `c` yet. -/
def FreshRows (c : SchoolClass) (st : GenState) : Prop :=
  ∀ r ∈ st.scheds, r.classId ≠ c.id

theorem class_id_unique {cls : List SchoolClass} {c : SchoolClass}
    (hndup : (cls.map (fun x => x.id)).Nodup) (hc : c ∈ cls) :
    ∀ c2 ∈ cls, c2.id = c.id → c2 = c := by
  obtain ⟨L1, L2, hsp⟩ := List.append_of_mem hc
  rw [hsp] at hndup
  obtain ⟨h1, h2⟩ := nodup_map_split_ne (fun x : SchoolClass => x.id) hndup
  intro c2 hc2 hid
  rw [hsp] at hc2
  rcases List.mem_append.mp hc2 with h | h
  · exact absurd hid (h1 c2 h)
  · rcases List.mem_cons.mp h with h | h
    · exact h
    · exact absurd hid (h2 c2 h)

/-- A block that only appends rows of a class whose grade is outside
{8, 9, 10} preserves coherence: the new rows carry no obligation and the
prepended binding entries (keyed by that class) do not change the lookups
the old rows depend on. -/
theorem coherent_of_delta_vacuous {ctx : GenCtx} {c : SchoolClass} {day : Nat}
    {st st' : GenState}
    (hdelta : BlockDelta ctx c day st st')
    (hndup : (ctx.classes.map (fun x => x.id)).Nodup) (hc : c ∈ ctx.classes)
    (hg : c.grade ≠ some 8 ∧ c.grade ≠ some 9 ∧ c.grade ≠ some 10)
    (hcoh : Coherent ctx st) : Coherent ctx st' := by
  obtain ⟨⟨rows, hr, htag⟩, ⟨entries, he, hev⟩⟩ := hdelta
  intro r hrm c2 hc2 hcl
  have hlook : ∀ sid, c2.id ≠ c.id →
      bindLookup st'.bindMap c2.id sid = bindLookup st.bindMap c2.id sid := by
    intro sid hne
    rw [he]
    exact bindLookup_append_no_key entries st.bindMap c2.id sid
      (fun e hem => by rw [(hev e hem).1]; exact fun hx => hne hx.symm)
  rw [hr] at hrm
  rcases List.mem_append.mp hrm with hold | hnew
  · by_cases hid : c2.id = c.id
    · have hc2c : c2 = c := class_id_unique hndup hc c2 hc2 hid
      subst hc2c
      refine ⟨?_, ?_⟩
      · intro hgr
        rcases hgr with hgr | hgr
        · exact absurd hgr hg.1
        · exact absurd hgr hg.2.1
      · intro hgr
        exact absurd hgr hg.2.2
    · have horig := hcoh r hold c2 hc2 hcl
      refine ⟨?_, ?_⟩
      · intro hgr
        have h1 := horig.1 hgr
        by_cases hlib : r.subjectId ∈ libGamesIds ctx.subjects
        · rw [if_pos hlib] at h1 ⊢
          exact h1
        · rw [if_neg hlib] at h1 ⊢
          rw [hlook r.subjectId hid]
          exact h1
      · intro hgr hm
        rw [hlook r.subjectId hid]
        exact horig.2 hgr hm
  · have := (htag r hnew).1
    rw [this] at hcl
    have hc2c : c2 = c := class_id_unique hndup hc c2 hc2 hcl.symm
    subst hc2c
    refine ⟨?_, ?_⟩
    · intro hgr
      rcases hgr with hgr | hgr
      · exact absurd hgr hg.1
      · exact absurd hgr hg.2.1
    · intro hgr
      exact absurd hgr hg.2.2

/-- Appending one row of class `c` keeps coherence when the row itself
meets its class's obligations against the (unchanged) binding map. -/
theorem coherent_addSched {ctx : GenCtx} {st : GenState} {c : SchoolClass}
    (hndup : (ctx.classes.map (fun x => x.id)).Nodup) (hc : c ∈ ctx.classes)
    (tid sid day period : Nat)
    (h89 : (c.grade = some 8 ∨ c.grade = some 9) →
      if sid ∈ libGamesIds ctx.subjects
        then ∃ t0 ts, ctx.teachers = t0 :: ts ∧ tid = t0.id
        else bindLookup st.bindMap c.id sid = some tid)
    (h10 : c.grade = some 10 →
      (∀ m, mathsSubjectOf ctx.subjects = some m → sid ≠ m.id) →
      bindLookup st.bindMap c.id sid = some tid)
    (hcoh : Coherent ctx st) :
    Coherent ctx (addSched st tid c.id sid day period) := by
  intro r hr c2 hc2 hcl
  simp only [addSched] at hr ⊢
  rcases List.mem_append.mp hr with hold | hnew
  · exact hcoh r hold c2 hc2 hcl
  · have hre : r = ⟨tid, c.id, sid, day, period⟩ := by simpa using hnew
    subst hre
    simp only at hcl
    have hc2c : c2 = c := class_id_unique hndup hc c2 hc2 hcl.symm
    subst hc2c
    exact ⟨h89, h10⟩

/-- Prepending a binding entry for `(c, sid)` keeps coherence when every
already-flushed in-scope row of class `c` with subject `sid` carries the
inserted teacher. -/
theorem coherent_bindInsert {ctx : GenCtx} {st : GenState} {c : SchoolClass}
    (hndup : (ctx.classes.map (fun x => x.id)).Nodup) (hc : c ∈ ctx.classes)
    (sid v : Nat)
    (hold : ∀ r ∈ st.scheds, r.classId = c.id → r.subjectId = sid →
      (((c.grade = some 8 ∨ c.grade = some 9) ∧ sid ∉ libGamesIds ctx.subjects) ∨
        (c.grade = some 10 ∧ ∀ m, mathsSubjectOf ctx.subjects = some m → sid ≠ m.id)) →
      r.teacherId = v)
    (hcoh : Coherent ctx st) :
    Coherent ctx { st with bindMap := (c.id, sid, v) :: st.bindMap } := by
  intro r hr c2 hc2 hcl
  simp only at hr ⊢
  have horig := hcoh r hr c2 hc2 hcl
  by_cases hid : c2.id = c.id
  · have hc2c : c2 = c := class_id_unique hndup hc c2 hc2 hid
    subst hc2c
    refine ⟨?_, ?_⟩
    · intro hgr
      have h1 := horig.1 hgr
      by_cases hlib : r.subjectId ∈ libGamesIds ctx.subjects
      · rw [if_pos hlib] at h1 ⊢
        exact h1
      · rw [if_neg hlib] at h1 ⊢
        by_cases hs : r.subjectId = sid
        · rw [hs, bindLookup_cons_self]
          have := hold r hr hcl hs (Or.inl ⟨hgr, hs ▸ hlib⟩)
          rw [this]
        · rw [bindLookup_cons_ne _ _ _ _ _ _ (Or.inr (fun hx => hs hx.symm))]
          exact h1
    · intro hgr hm
      by_cases hs : r.subjectId = sid
      · rw [hs, bindLookup_cons_self]
        have := hold r hr hcl hs (Or.inr ⟨hgr, fun m hmm => hs ▸ hm m hmm⟩)
        rw [this]
      · rw [bindLookup_cons_ne _ _ _ _ _ _ (Or.inr (fun hx => hs hx.symm))]
        exact horig.2 hgr hm
  · refine ⟨?_, ?_⟩
    · intro hgr
      have h1 := horig.1 hgr
      by_cases hlib : r.subjectId ∈ libGamesIds ctx.subjects
      · rw [if_pos hlib] at h1 ⊢
        exact h1
      · rw [if_neg hlib] at h1 ⊢
        rw [bindLookup_cons_ne _ _ _ _ _ _ (Or.inl (fun hx => hid hx.symm))]
        exact h1
    · intro hgr hm
      rw [bindLookup_cons_ne _ _ _ _ _ _ (Or.inl (fun hx => hid hx.symm))]
      exact horig.2 hgr hm

theorem coherent_unsched {ctx : GenCtx} {st : GenState} (u : List String)
    (hcoh : Coherent ctx st) :
    Coherent ctx { st with unscheduled := u } :=
  hcoh

/-- The shared regular-period loop preserves coherence, provided its
subjects are in scope for the class and the non-sticky mode is only used
for classes outside the sticky grade bands. -/
theorem coherent_loop {ctx : GenCtx} {c : SchoolClass} {day : Nat}
    {reg : List Subject} {sticky p1A : Bool}
    (hndup : (ctx.classes.map (fun x => x.id)).Nodup) (hc : c ∈ ctx.classes)
    (hst : sticky = false → c.grade ≠ some 8 ∧ c.grade ≠ some 9 ∧ c.grade ≠ some 10)
    (hsubj : ∀ q ∈ reg, subjOk ctx c q.id) :
    ∀ (ps : List Nat) (st : GenState) (used : List Nat), Coherent ctx st →
      Coherent ctx (regularPeriodsLoop ctx c day reg sticky p1A ps st used) := by
  intro ps
  induction ps with
  | nil => intro st used hcoh; exact hcoh
  | cons p rest ih =>
    intro st used hcoh
    unfold regularPeriodsLoop
    split
    · exact ih st used hcoh
    · split
      · exact hcoh
      · rename_i subject hfind
        have hqmem : subject ∈ reg := List.mem_of_find?_eq_some hfind
        have hq := hsubj subject hqmem
        split
        · rename_i teacherId hb
          cases sticky with
          | false => simp at hb
          | true =>
            have hlk : bindLookup st.bindMap c.id subject.id = some teacherId := by
              simpa using hb
            refine ih _ _ ?_
            refine coherent_addSched hndup hc teacherId subject.id day p ?_ ?_ hcoh
            · intro hgr
              rw [if_neg (hq.1 hgr)]
              exact hlk
            · intro hgr _
              exact hlk
        · rename_i hb
          split
          · exact ih _ _ (coherent_unsched _ hcoh)
          · rename_i teacherId hfp
            cases sticky with
            | false =>
              dsimp only
              simp only [Bool.false_eq_true, reduceIte]
              refine ih _ _ ?_
              have hg := hst rfl
              refine coherent_addSched hndup hc teacherId subject.id day p ?_ ?_ hcoh
              · intro hgr
                rcases hgr with hgr | hgr
                · exact absurd hgr hg.1
                · exact absurd hgr hg.2.1
              · intro hgr
                exact absurd hgr hg.2.2
            | true =>
              dsimp only
              simp only [reduceIte]
              have hnone : bindLookup st.bindMap c.id subject.id = none := by
                simpa using hb
              refine ih _ _ ?_
              have hcoh1 : Coherent ctx
                  { st with bindMap := (c.id, subject.id, teacherId) :: st.bindMap } := by
                refine coherent_bindInsert hndup hc subject.id teacherId ?_ hcoh
                intro r hr hcl hs hscope
                have horig := hcoh r hr c hc hcl
                rcases hscope with ⟨hgr, hlib⟩ | ⟨hgr, hm⟩
                · have h1 := horig.1 hgr
                  rw [if_neg (hs ▸ hlib)] at h1
                  rw [hs, hnone] at h1
                  cases h1
                · have h2 := horig.2 hgr (fun m hmm => hs ▸ hm m hmm)
                  rw [hs, hnone] at h2
                  cases h2
              refine coherent_addSched hndup hc teacherId subject.id day p ?_ ?_ hcoh1
              · intro hgr
                rw [if_neg (hq.1 hgr)]
                exact bindLookup_cons_self _ _ _ _
              · intro hgr _
                exact bindLookup_cons_self _ _ _ _

/-- The class-teacher period-1 pass preserves coherence.  It can only fire
on Monday, when (in the phase-0 fold) no row of the class has been flushed
yet, so its unconditional binding-map write endangers nothing. -/
theorem coherent_CT {ctx : GenCtx} {c : SchoolClass} {day : Nat}
    {reg : List Subject} {st : GenState} {used : List Nat}
    (hndup : (ctx.classes.map (fun x => x.id)).Nodup) (hc : c ∈ ctx.classes)
    (hsubj : ∀ q ∈ reg, subjOk ctx c q.id)
    (hfresh : day = 0 → FreshRows c st)
    (hcoh : Coherent ctx st) :
    Coherent ctx (classTeacherPeriod1 ctx c day reg st used).st := by
  cases reg with
  | nil =>
    unfold classTeacherPeriod1
    split
    · split
      · exact hcoh
      · split
        · rename_i heq hreg
          cases hreg
        · exact hcoh
    · exact hcoh
  | cons s0 rest =>
    unfold classTeacherPeriod1
    split
    · rename_i hcond
      rw [Bool.and_eq_true] at hcond
      have hday : day = 0 := by simpa using hcond.2
      have hfr := hfresh hday
      split
      · exact hcoh
      · split
        · rename_i ct s1 rest1 heqt heql
          injection heql with h1 h2
          subst h1
          subst h2
          dsimp only
          have hsfpmem :
              ((s0 :: rest).find? (fun s => !(used.contains s.id))).getD s0 ∈ s0 :: rest := by
            cases hf : (s0 :: rest).find? (fun s => !(used.contains s.id)) with
            | none => exact List.mem_cons_self s0 rest
            | some x => exact List.mem_of_find?_eq_some hf
          have hq := hsubj _ hsfpmem
          show Coherent ctx (addSched
            { st with bindMap :=
                (c.id, (((s0 :: rest).find? (fun s => !(used.contains s.id))).getD s0).id,
                  ct.id) :: st.bindMap }
            ct.id c.id (((s0 :: rest).find? (fun s => !(used.contains s.id))).getD s0).id day 1)
          refine coherent_addSched hndup hc ct.id _ day 1 ?_ ?_ ?_
          · intro hgr
            rw [if_neg (hq.1 hgr)]
            exact bindLookup_cons_self _ _ _ _
          · intro hgr _
            exact bindLookup_cons_self _ _ _ _
          · refine coherent_bindInsert hndup hc _ ct.id ?_ hcoh
            intro r hr hcl _ _
            exact absurd hcl (hfr r hr)
        · exact hcoh
    · exact hcoh

theorem mem_libGamesIds_lib {subs : List Subject} {x : Subject}
    (h : librarySubjectOf subs = some x) : x.id ∈ libGamesIds subs := by
  unfold libGamesIds
  refine List.mem_map.mpr ⟨x, ?_, rfl⟩
  rw [List.mem_append]
  left
  simp [h]

theorem mem_libGamesIds_games {subs : List Subject} {x : Subject}
    (h : gamesSubjectOf subs = some x) : x.id ∈ libGamesIds subs := by
  unfold libGamesIds
  refine List.mem_map.mpr ⟨x, ?_, rfl⟩
  rw [List.mem_append]
  right
  simp [h]

/-- The 8/9 regular subject list was filtered against the Library and
Games subjects, so its ids avoid both. -/
theorem regularSubjects89_not_libGames (subs : List Subject) :
    ∀ q ∈ regularSubjects89 subs, q.id ∉ libGamesIds subs := by
  intro q hq hmem
  unfold regularSubjects89 at hq
  dsimp only at hq
  have hq2 := List.mem_of_mem_take hq
  have hf := List.of_mem_filter hq2
  obtain ⟨s, hs, hsid⟩ := List.mem_map.mp hmem
  rw [List.mem_append] at hs
  rcases hs with hs | hs
  · have hlib : librarySubjectOf subs = some s := by
      cases hL : librarySubjectOf subs with
      | none => rw [hL] at hs; cases hs
      | some y =>
        rw [hL] at hs
        simp at hs
        rw [hs]
    rw [hlib] at hf
    rw [Bool.and_eq_true] at hf
    have := hf.1
    simp at this
    exact this hsid.symm
  · have hgam : gamesSubjectOf subs = some s := by
      cases hG : gamesSubjectOf subs with
      | none => rw [hG] at hs; cases hs
      | some y =>
        rw [hG] at hs
        simp at hs
        rw [hs]
    rw [hgam] at hf
    rw [Bool.and_eq_true] at hf
    have := hf.2
    simp at this
    exact this hsid.symm

/-- The grade-6/7 block preserves coherence: its rows and binding writes
all belong to a class whose grade carries no coherence obligation. -/
theorem coherent_block67 {ctx : GenCtx} {c : SchoolClass} {st : GenState} {day : Nat}
    (hndup : (ctx.classes.map (fun x => x.id)).Nodup) (hc : c ∈ ctx.classes)
    (hg : c.grade = some 6 ∨ c.grade = some 7)
    (hcoh : Coherent ctx st) : Coherent ctx (processClass67 ctx st c day) := by
  refine coherent_of_delta_vacuous (processClass67_delta ctx c day st) hndup hc ?_ hcoh
  rcases hg with hg | hg <;> rw [hg] <;>
    exact ⟨by decide, by decide, by decide⟩

/-- The grade-8/9 block preserves coherence (given Monday freshness of the
class for the class-teacher write). -/
theorem coherent_block89 {ctx : GenCtx} {c : SchoolClass} {st : GenState} {day : Nat}
    (hndup : (ctx.classes.map (fun x => x.id)).Nodup) (hc : c ∈ ctx.classes)
    (hg : c.grade = some 8 ∨ c.grade = some 9)
    (hfresh : day = 0 → FreshRows c st)
    (hcoh : Coherent ctx st) : Coherent ctx (processClass89 ctx st c day) := by
  have hsubj : ∀ q ∈ regularSubjects89 ctx.subjects, subjOk ctx c q.id := by
    intro q hq
    refine ⟨fun _ => regularSubjects89_not_libGames ctx.subjects q hq, ?_⟩
    intro h10
    rcases hg with hgg | hgg <;> rw [hgg] at h10 <;> exact absurd h10 (by decide)
  unfold processClass89
  dsimp only
  have hcoh1 : Coherent ctx (classTeacherPeriod1 ctx c day
      (regularSubjects89 ctx.subjects) st (subjectsScheduledToday st.scheds c.id day)).st :=
    coherent_CT hndup hc hsubj hfresh hcoh
  have hcoh2 := @coherent_loop ctx c day (regularSubjects89 ctx.subjects) true
    (classTeacherPeriod1 ctx c day (regularSubjects89 ctx.subjects) st
      (subjectsScheduledToday st.scheds c.id day)).period1Assigned
    hndup hc (fun h => nomatch h) hsubj
    [1, 2, 3, 4, 5, 6, 7]
    (classTeacherPeriod1 ctx c day (regularSubjects89 ctx.subjects) st
      (subjectsScheduledToday st.scheds c.id day)).st
    (classTeacherPeriod1 ctx c day (regularSubjects89 ctx.subjects) st
      (subjectsScheduledToday st.scheds c.id day)).used hcoh1
  split
  · rename_i p8 hp8
    split
    · exact hcoh2
    · rename_i t0 ts hteq
      refine coherent_addSched hndup hc t0.id p8.id day 8 ?_ ?_ hcoh2
      · intro _
        have hmem : p8.id ∈ libGamesIds ctx.subjects := by
          split at hp8
          · exact mem_libGamesIds_lib hp8
          · exact mem_libGamesIds_games hp8
        rw [if_pos hmem]
        exact ⟨t0, ts, hteq, rfl⟩
      · intro h10
        rcases hg with hgg | hgg <;> rw [hgg] at h10 <;> exact absurd h10 (by decide)
  · exact hcoh2

/-- The grade-10 block preserves coherence: the Maths rows carry no
obligation (the grade-10 scope excludes Maths), the sticky loop runs over
non-Maths subjects, and the period-8 binding write is keyed by Maths. -/
theorem coherent_block10 {ctx : GenCtx} {c : SchoolClass} {st : GenState} {day : Nat}
    (hndup : (ctx.classes.map (fun x => x.id)).Nodup) (hc : c ∈ ctx.classes)
    (hg10 : c.grade = some 10)
    (hcoh : Coherent ctx st) : Coherent ctx (processClass10 ctx st c day) := by
  have hno89 : ¬(c.grade = some 8 ∨ c.grade = some 9) := by
    intro h
    rcases h with h | h <;> rw [hg10] at h <;> exact absurd h (by decide)
  unfold processClass10
  split
  · exact hcoh
  · rename_i maths hmaths
    dsimp only
    have hsubj : ∀ q ∈ otherSubjects10 ctx.subjects maths.id, subjOk ctx c q.id := by
      intro q hq
      refine ⟨fun h => absurd h hno89, ?_⟩
      intro _ m hm
      rw [hmaths] at hm
      injection hm with hm
      rw [← hm]
      exact otherSubjects10_ne ctx.subjects maths.id q hq
    have hrow : ∀ {st' : GenState} (tid : Nat), Coherent ctx st' →
        Coherent ctx (addSched st' tid c.id maths.id day 1) := by
      intro st' tid h
      refine coherent_addSched hndup hc tid maths.id day 1 ?_ ?_ h
      · intro h89
        exact absurd h89 hno89
      · intro _ hm2
        exact absurd rfl (hm2 maths hmaths)
    have hrow8 : ∀ {st' : GenState} (tid : Nat), Coherent ctx st' →
        Coherent ctx (addSched st' tid c.id maths.id day 8) := by
      intro st' tid h
      refine coherent_addSched hndup hc tid maths.id day 8 ?_ ?_ h
      · intro h89
        exact absurd h89 hno89
      · intro _ hm2
        exact absurd rfl (hm2 maths hmaths)
    have hcoh1 : Coherent ctx (grade10Period1 ctx st c day maths) := by
      unfold grade10Period1
      split
      · rename_i tid htid
        split
        · exact hcoh
        · exact hrow tid hcoh
      · exact hcoh
    have hcoh2 := @coherent_loop ctx c day (otherSubjects10 ctx.subjects maths.id) true
      false hndup hc (fun h => nomatch h) hsubj
      [2, 3, 4, 5, 6, 7] (grade10Period1 ctx st c day maths)
      (usedToday10 st c day maths) hcoh1
    unfold grade10Period8
    split
    · rename_i tid htid
      split
      · exact hcoh2
      · exact hrow8 tid hcoh2
    · split
      · rename_i tid htid
        dsimp only
        have hcoh3 : Coherent ctx
            { regularPeriodsLoop ctx c day (otherSubjects10 ctx.subjects maths.id) true false
                [2, 3, 4, 5, 6, 7] (grade10Period1 ctx st c day maths)
                (usedToday10 st c day maths) with
              bindMap := (c.id, maths.id, tid) ::
                (regularPeriodsLoop ctx c day (otherSubjects10 ctx.subjects maths.id) true false
                  [2, 3, 4, 5, 6, 7] (grade10Period1 ctx st c day maths)
                  (usedToday10 st c day maths)).bindMap } := by
          refine coherent_bindInsert hndup hc maths.id tid ?_ hcoh2
          intro r hr hcl hs hscope
          rcases hscope with ⟨hgr, _⟩ | ⟨_, hm⟩
          · exact absurd hgr hno89
          · exact absurd rfl (hm maths hmaths)
        split
        · exact hcoh3
        · exact hrow8 tid hcoh3
      · exact hcoh2

/-- Grade dispatch preserves coherence; Monday processing of a class
requires that none of its rows were flushed yet. -/
theorem coherent_processClassDay {ctx : GenCtx} {c : SchoolClass} {st : GenState}
    {day : Nat}
    (hndup : (ctx.classes.map (fun x => x.id)).Nodup) (hc : c ∈ ctx.classes)
    (hfresh : day = 0 → FreshRows c st)
    (hcoh : Coherent ctx st) : Coherent ctx (processClassDay ctx st c day) := by
  unfold processClassDay
  split
  · rename_i hg
    exact coherent_block67 hndup hc hg hcoh
  · split
    · rename_i hg
      exact coherent_block89 hndup hc hg hfresh hcoh
    · split
      · rename_i hg
        exact coherent_block10 hndup hc hg hcoh
      · exact hcoh

/-- Every flushed row belongs to one of the already-processed classes. -/
def RowsWithin (ids : List Nat) (st : GenState) : Prop :=
  ∀ r ∈ st.scheds, r.classId ∈ ids

theorem rowsWithin_step {ctx : GenCtx} {c : SchoolClass} {st : GenState}
    {day : Nat} {ids : List Nat} (h : RowsWithin ids st) :
    RowsWithin (ids ++ [c.id]) (processClassDay ctx st c day) := by
  obtain ⟨⟨rows, hr, htag⟩, _⟩ := processClassDay_delta ctx c day st
  intro r hrm
  rw [hr] at hrm
  rcases List.mem_append.mp hrm with h1 | h1
  · exact List.mem_append.mpr (Or.inl (h r h1))
  · refine List.mem_append.mpr (Or.inr ?_)
    rw [(htag r h1).1]
    exact List.mem_singleton.mpr rfl

/-- Monday: folding the class list keeps coherence, because each class is
processed exactly once (fresh when its turn comes). -/
theorem coherent_phase0 {ctx : GenCtx}
    (hndup : (ctx.classes.map (fun x => x.id)).Nodup) :
    ∀ (todo : List SchoolClass) (ids : List Nat) (st : GenState),
      (∀ c2 ∈ todo, c2 ∈ ctx.classes) →
      (∀ c2 ∈ todo, c2.id ∉ ids) →
      ((todo.map (fun x => x.id)).Nodup) →
      RowsWithin ids st → Coherent ctx st →
      Coherent ctx (todo.foldl (fun s c => processClassDay ctx s c 0) st) := by
  intro todo
  induction todo with
  | nil => intro ids st _ _ _ _ hcoh; exact hcoh
  | cons c rest ih =>
    intro ids st hmem hnotin hnd hK hcoh
    rw [List.foldl_cons]
    have hcm : c ∈ ctx.classes := hmem c (List.mem_cons_self c rest)
    have hfr : FreshRows c st := by
      intro r hr hcl
      exact hnotin c (List.mem_cons_self c rest) (hcl ▸ hK r hr)
    have hcoh1 : Coherent ctx (processClassDay ctx st c 0) :=
      coherent_processClassDay hndup hcm (fun _ => hfr) hcoh
    have hK1 : RowsWithin (ids ++ [c.id]) (processClassDay ctx st c 0) :=
      rowsWithin_step hK
    rw [List.map_cons, List.nodup_cons] at hnd
    refine ih (ids ++ [c.id]) (processClassDay ctx st c 0)
      (fun c2 h2 => hmem c2 (List.mem_cons_of_mem c h2)) ?_ hnd.2 hK1 hcoh1
    intro c2 h2 habs
    rcases List.mem_append.mp habs with habs | habs
    · exact hnotin c2 (List.mem_cons_of_mem c h2) habs
    · rw [List.mem_singleton] at habs
      exact hnd.1 (habs ▸ List.mem_map.mpr ⟨c2, h2, rfl⟩)

/-- Days 1-4: the class-teacher write is disabled, so the fold preserves
coherence with no freshness bookkeeping. -/
theorem coherent_dayFold_pos {ctx : GenCtx}
    (hndup : (ctx.classes.map (fun x => x.id)).Nodup) (day : Nat) (hday : day ≠ 0) :
    ∀ (todo : List SchoolClass), (∀ c2 ∈ todo, c2 ∈ ctx.classes) →
      ∀ st, Coherent ctx st →
      Coherent ctx (todo.foldl (fun s c => processClassDay ctx s c day) st) := by
  intro todo
  induction todo with
  | nil => intro _ st hcoh; exact hcoh
  | cons c rest ih =>
    intro hmem st hcoh
    rw [List.foldl_cons]
    refine ih (fun c2 h2 => hmem c2 (List.mem_cons_of_mem c h2)) _ ?_
    exact coherent_processClassDay hndup (hmem c (List.mem_cons_self c rest))
      (fun h0 => absurd h0 hday) hcoh

/-- The full Monday-Friday run is coherent (class ids unique). -/
theorem coherent_generateFull (allT : List Teacher) (cls : List SchoolClass)
    (subs : List Subject)
    (hndup : (cls.map (fun x => x.id)).Nodup) :
    Coherent (mkGenCtx allT cls subs) (generateFull allT cls subs) := by
  have hgen : generateFull allT cls subs =
      runDays (mkGenCtx allT cls subs)
        (initGenState (mkGenCtx allT cls subs).teachers subs) := rfl
  rw [hgen]
  unfold runDays
  have h5 : List.range 5 = [0, 1, 2, 3, 4] := rfl
  rw [h5]
  simp only [List.foldl_cons, List.foldl_nil]
  unfold dayFold
  have hnd : (((mkGenCtx allT cls subs).classes).map (fun x => x.id)).Nodup := hndup
  refine coherent_dayFold_pos hnd 4 (by decide) _ (fun c2 h2 => h2) _ ?_
  refine coherent_dayFold_pos hnd 3 (by decide) _ (fun c2 h2 => h2) _ ?_
  refine coherent_dayFold_pos hnd 2 (by decide) _ (fun c2 h2 => h2) _ ?_
  refine coherent_dayFold_pos hnd 1 (by decide) _ (fun c2 h2 => h2) _ ?_
  refine coherent_phase0 hnd _ [] _ (fun c2 h2 => h2) (fun c2 _ h => nomatch h) hndup ?_ ?_
  · intro r hr
    cases hr
  · intro r hr
    cases hr

/-- C2 (amended).  Sticky binding holds for the grade bands that consult
the binding map: within one generation run over classes with unique ids,
any two assignments of the same (class, subject) pair agree on the teacher
whenever the class has grade 8 or 9, or has grade 10 and the subject is
not the Maths subject.  (Grade-6/7 classes never consult the binding map —
see the counterexample — and the grade-10 Maths period 1 is re-selected
daily.) -/
theorem sticky_band_8_9_10 (allT : List Teacher) (cls : List SchoolClass)
    (subs : List Subject) (c : SchoolClass) (r1 r2 : Schedule)
    (hndup : (cls.map (fun x => x.id)).Nodup)
    (hc : c ∈ cls)
    (h1 : r1 ∈ (generateFull allT cls subs).scheds)
    (h2 : r2 ∈ (generateFull allT cls subs).scheds)
    (hc1 : r1.classId = c.id) (hc2 : r2.classId = c.id)
    (hs : r1.subjectId = r2.subjectId)
    (hband : (c.grade = some 8 ∨ c.grade = some 9) ∨
      (c.grade = some 10 ∧
        ∀ m, mathsSubjectOf subs = some m → r1.subjectId ≠ m.id)) :
    r1.teacherId = r2.teacherId := by
  have hcoh := coherent_generateFull allT cls subs hndup
  have k1 := hcoh r1 h1 c hc hc1
  have k2 := hcoh r2 h2 c hc hc2
  rcases hband with hgr | ⟨hgr, hm⟩
  · have a1 := k1.1 hgr
    have a2 := k2.1 hgr
    rw [← hs] at a2
    by_cases hlib : r1.subjectId ∈ libGamesIds (mkGenCtx allT cls subs).subjects
    · rw [if_pos hlib] at a1 a2
      obtain ⟨t0, ts, hts, he1⟩ := a1
      obtain ⟨t0b, tsb, htsb, he2⟩ := a2
      rw [hts] at htsb
      injection htsb with hh _
      rw [he1, he2, hh]
    · rw [if_neg hlib] at a1 a2
      rw [a1] at a2
      injection a2
  · have a1 := k1.2 hgr hm
    have a2 := k2.2 hgr (fun m hmm => hs ▸ hm m hmm)
    rw [← hs] at a2
    rw [a1] at a2
    injection a2

theorem sticky_band_8_9_10_witness :
    (⟨2, 53, 101, 0, 1⟩ : Schedule).teacherId =
      (⟨2, 53, 101, 1, 1⟩ : Schedule).teacherId :=
  sticky_band_8_9_10 [cex3T1, cex3U, cex3CT] [cex3K1, cex3K2, cex3K3] [cex3S]
    cex3K3 ⟨2, 53, 101, 0, 1⟩ ⟨2, 53, 101, 1, 1⟩
    (by decide) (by decide) (by decide) (by decide) (by decide) (by decide)
    (by decide) (Or.inl (by decide))

end TTApp
